import Mathlib

/-!
# Verification of the todo-integrator synchronization core

A shallow embedding, in Lean 4, of the task-synchronization engine of the
`todo-integrator` Obsidian plugin:

* `DailyNoteManager` (`src/daily-note/daily-note-manager.ts`): the
  line-oriented note operations `parseDailyNoteTodos`,
  `addTaskToTodoSection`, `findOrCreateTodoSection`, `updateTaskCompletion`;
* `TodoSynchronizer` (`src/sync/todo-synchronizer.ts`): the matcher functions
  `filterNewTasks` / `filterNewObsidianTasks` and the three sync phases
  `syncMsftToObsidian`, `syncObsidianToMsft`, `syncCompletions` composed by
  `performFullSync`;
* `ErrorHandler` (`src/utils/error-handler.ts`): the message-normalising
  helpers `handleApiError` / `handleFileError`;
* the relevant slice of `TodoApiClient` (`src/api/todo-api-client.ts`):
  `getTasks`, `createTask`, `completeTask`.

JavaScript strings are modelled as Lean `String` (a wrapper around
`List Char` in this toolchain); the regular expressions used by the note
manager are hand-compiled to deterministic character-list matchers below.
External collaborator failures (network, vault I/O) are injected through an
explicit `Faults` record, and every collaborator call is recorded in a trace
so that frame properties ("operation X is not called") are expressible.
-/

namespace TodoIntegrator

/-! ## JavaScript string primitives

`String.prototype.trim`, `String.prototype.toLowerCase` (ASCII fragment),
`String.prototype.split('\n')` and `Array.prototype.join('\n')`, modelled on
`List Char`.  The whitespace class is JavaScript's `\s` restricted to the
code points that can actually occur here. -/

/-- JavaScript's whitespace class `\s` (the code points relevant to this
development: ASCII whitespace, NBSP and the BOM). -/
def isJsSpace (c : Char) : Bool :=
  c = ' ' || c = '\t' || c = '\n' || c = '\r' || c = '\x0b' || c = '\x0c' ||
  c = ' ' || c = '﻿'

/-- `trim` on character lists: drop `\s` characters from both ends. -/
def jsTrimList (l : List Char) : List Char :=
  ((l.dropWhile isJsSpace).reverse.dropWhile isJsSpace).reverse

/-- `String.prototype.trim`. -/
def jsTrim (s : String) : String := ⟨jsTrimList s.data⟩

/-- `String.prototype.toLowerCase`, ASCII fragment (both stores feed the
same function, so only its deterministic, mapwise nature matters). -/
def jsToLower (s : String) : String := ⟨s.data.map Char.toLower⟩

/-- The normalized title used as the sole matching key:
`title.trim().toLowerCase()`. -/
def normTitle (s : String) : String := jsToLower (jsTrim s)

/-- `content.split('\n')` on character lists.  Always returns a nonempty
list; no element contains `'\n'`. -/
def splitCl : List Char → List (List Char)
  | [] => [[]]
  | c :: rest =>
    match splitCl rest, decide (c = '\n') with
    | r, true => [] :: r
    | [], false => [[c]]
    | h :: t, false => (c :: h) :: t

/-- `lines.join('\n')` on character lists. -/
def joinCl : List (List Char) → List Char
  | [] => []
  | [l] => l
  | l :: l' :: rest => l ++ '\n' :: joinCl (l' :: rest)

/-- `content.split('\n')` producing `String` lines. -/
def splitLines (s : String) : List String := (splitCl s.data).map (⟨·⟩)

/-- `lines.join('\n')` producing the file content. -/
def joinLines (ls : List String) : String := ⟨joinCl (ls.map String.data)⟩

theorem splitCl_ne_nil (l : List Char) : splitCl l ≠ [] := by
  induction l with
  | nil => simp [splitCl]
  | cons c rest ih =>
    simp only [splitCl]
    rcases h : splitCl rest with _ | ⟨h', t⟩
    · exact absurd h ih
    · cases hc : decide (c = '\n') <;> simp

theorem joinCl_splitCl (l : List Char) : joinCl (splitCl l) = l := by
  induction l with
  | nil => rfl
  | cons c rest ih =>
    simp only [splitCl]
    rcases h : splitCl rest with _ | ⟨h', t⟩
    · exact absurd h (splitCl_ne_nil rest)
    · rw [h] at ih
      cases hc : decide (c = '\n') with
      | true =>
        have hc' : c = '\n' := of_decide_eq_true hc
        subst hc'
        simpa [joinCl] using ih
      | false =>
        cases t with
        | nil => simpa [joinCl] using ih
        | cons t0 ts => simpa [joinCl] using ih

theorem mem_splitCl_not_newline (l : List Char) :
    ∀ x ∈ splitCl l, '\n' ∉ x := by
  induction l with
  | nil => intro x hx; simp [splitCl] at hx; simp [hx]
  | cons c rest ih =>
    intro x hx
    simp only [splitCl] at hx
    rcases h : splitCl rest with _ | ⟨h', t⟩
    · exact absurd h (splitCl_ne_nil rest)
    · rw [h] at hx
      cases hc : decide (c = '\n') with
      | true =>
        rw [hc] at hx
        rcases List.mem_cons.1 hx with rfl | hx'
        · simp
        · exact ih x (h ▸ hx')
      | false =>
        have hc' : ¬ c = '\n' := of_decide_eq_false hc
        rw [hc] at hx
        rcases List.mem_cons.1 hx with rfl | hx'
        · have hh : h' ∈ splitCl rest := h ▸ List.mem_cons_self _ _
          have := ih h' hh
          simp only [List.mem_cons]
          rintro (rfl | hmem)
          · exact hc' rfl
          · exact this hmem
        · exact ih x (h ▸ List.mem_cons_of_mem _ hx')

theorem splitCl_no_newline (l : List Char) (hl : '\n' ∉ l) :
    splitCl l = [l] := by
  induction l with
  | nil => rfl
  | cons c cs ihc =>
    have hc : ¬ c = '\n' := fun h => hl (h ▸ List.mem_cons_self _ _)
    have hcs : '\n' ∉ cs := fun h => hl (List.mem_cons_of_mem _ h)
    simp only [splitCl, ihc hcs, decide_eq_false hc]

theorem splitCl_append_newline (l r : List Char) (hl : '\n' ∉ l) :
    splitCl (l ++ '\n' :: r) = l :: splitCl r := by
  induction l with
  | nil =>
    rcases h : splitCl r with _ | ⟨h', t⟩
    · exact absurd h (splitCl_ne_nil r)
    · simp [splitCl, h]
  | cons c cs ihc =>
    have hc : ¬ c = '\n' := fun h => hl (h ▸ List.mem_cons_self _ _)
    have hcs : '\n' ∉ cs := fun h => hl (List.mem_cons_of_mem _ h)
    simp only [List.cons_append, splitCl, List.append_eq]
    rw [ihc hcs, decide_eq_false hc]

theorem splitCl_joinCl (ls : List (List Char)) (hne : ls ≠ [])
    (hnl : ∀ x ∈ ls, '\n' ∉ x) : splitCl (joinCl ls) = ls := by
  induction ls with
  | nil => exact absurd rfl hne
  | cons l rest ih =>
    cases rest with
    | nil => exact splitCl_no_newline l (hnl l (List.mem_cons_self _ _))
    | cons l2 rest2 =>
      have hrest : splitCl (joinCl (l2 :: rest2)) = l2 :: rest2 :=
        ih (by simp) (fun x hx => hnl x (List.mem_cons_of_mem _ hx))
      simp only [joinCl]
      rw [splitCl_append_newline _ _ (hnl l (List.mem_cons_self _ _)), hrest]

/-! ## The note manager's regular expressions

`DailyNoteManager` matches each line against
`/^(\s*)-\s*\[([x\s])\]\s*(.+)/` and extracts completion metadata with
`/\[completion::\s*(\d{4}-\d{2}-\d{2})\]/`.  Both are hand-compiled to
deterministic matchers: every quantifier in them is greedy over a character
class disjoint from the literal that follows, so the only backtracking a
JavaScript engine performs is the one step between the trailing `\s*` and
`(.+)` of the checkbox pattern, which is reproduced explicitly. -/

/-- Match `/^(\s*)-\s*\[([x\s])\]\s*(.+)/` against a line.  Returns
`(indent, checked, taskText)` — capture groups 1–3.  When everything after
the bracket is whitespace, the regex backtracks so that `(.+)` holds exactly
the final whitespace character. -/
def checkboxMatch (l : List Char) : Option (List Char × Char × List Char) :=
  let ind := l.takeWhile isJsSpace
  match l.dropWhile isJsSpace with
  | [] => none
  | c1 :: r2 =>
    if c1 = '-' then
      match r2.dropWhile isJsSpace with
      | [] => none
      | c2 :: rr =>
        match rr with
        | [] => none
        | cc :: rr2 =>
          match rr2 with
          | [] => none
          | c3 :: r4 =>
            if c2 = '[' && c3 = ']' then
              if cc = 'x' || isJsSpace cc then
                match r4.dropWhile isJsSpace with
                | [] =>
                  match r4.reverse with
                  | [] => none
                  | lc :: _ => some (ind, cc, [lc])
                | r5 => some (ind, cc, r5)
              else none
            else none
    else none

/-- Exactly `n` decimal digits (`\d{n}`); returns them and the rest. -/
def digitRun : Nat → List Char → Option (List Char × List Char)
  | 0, l => some ([], l)
  | n + 1, c :: rest =>
    if c.isDigit then (digitRun n rest).map (fun p => (c :: p.1, p.2)) else none
  | _ + 1, [] => none

/-- Match `/\[completion::\s*(\d{4}-\d{2}-\d{2})\]/` anchored at the head of
`l`; returns the captured date and the suffix after the whole match. -/
def completionAt (l : List Char) : Option (List Char × List Char) :=
  if "[completion::".data.isPrefixOf l then
    match digitRun 4 ((l.drop 13).dropWhile isJsSpace) with
    | none => none
    | some (y, r2) =>
      match r2 with
      | [] => none
      | c1 :: r3 =>
        if c1 = '-' then
          match digitRun 2 r3 with
          | none => none
          | some (m, r4) =>
            match r4 with
            | [] => none
            | c2 :: r5 =>
              if c2 = '-' then
                match digitRun 2 r5 with
                | none => none
                | some (d, r6) =>
                  match r6 with
                  | [] => none
                  | c3 :: r7 =>
                    if c3 = ']' then some (y ++ '-' :: m ++ '-' :: d, r7)
                    else none
              else none
        else none
  else none

/-- Leftmost match of the completion-metadata pattern: returns
`(prefix before the match, captured date, suffix after the match)`, so that
`match`'s capture is the date and `replace(re, '')` yields `pre ++ suf`. -/
def findCompletion : List Char → Option (List Char × List Char × List Char)
  | [] => none
  | c :: rest =>
    match completionAt (c :: rest) with
    | some (date, suf) => some ([], date, suf)
    | none =>
      match findCompletion rest with
      | some (pre, date, suf) => some (c :: pre, date, suf)
      | none => none

/-! ## Data model -/

/-- `DailyNoteTask` (`src/types.ts`): a task parsed from a note line.
`completionDate = none` models the `undefined` of the optional field; the
code's truthiness tests make `some ""` behave like `none`, which the
embedding reproduces at each use site. -/
structure DailyNoteTask where
  title : String
  completed : Bool
  line : Nat
  completionDate : Option String
deriving Repr, DecidableEq

/-- `TodoTask` (`src/types.ts`), restricted to the fields the synchronizer
reads.  `status` is one of `"notStarted" | "inProgress" | "completed"` but is
kept as a string exactly as in the source. -/
structure TodoTask where
  id : String
  title : String
  status : String
  startDateTime : Option String
  completedDateTime : Option String
deriving Repr, DecidableEq

/-! ## `DailyNoteManager` operations (lines level)

The manager reads the file, does `content.split('\n')`, manipulates the
resulting array and writes `lines.join('\n')` back.  The functions below are
the array-level cores; `splitLines`/`joinLines` connect them to the file
content. -/

/-- The parse of one line inside `parseDailyNoteTodos`'s loop: checkbox
match, completion-date extraction (`match`), metadata removal + trim for the
title (`replace` + `trim`), and `checked.toLowerCase() === 'x'`. -/
def lineTaskData (l : List Char) : Option (String × Bool × Option String) :=
  match checkboxMatch l with
  | none => none
  | some (_, checked, taskText) =>
    let isCompleted := checked.toLower = 'x'
    match findCompletion taskText with
    | some (pre, date, suf) =>
      some (⟨jsTrimList (pre ++ suf)⟩, isCompleted, some ⟨date⟩)
    | none => some (⟨jsTrimList taskText⟩, isCompleted, none)

/-- `parseDailyNoteTodos`'s loop over `lines`, carrying the line index. -/
def parseLinesFrom : Nat → List String → List DailyNoteTask
  | _, [] => []
  | i, l :: rest =>
    match lineTaskData l.data with
    | some (t, comp, cd) =>
      { title := t, completed := comp, line := i, completionDate := cd }
        :: parseLinesFrom (i + 1) rest
    | none => parseLinesFrom (i + 1) rest

/-- `DailyNoteManager.parseDailyNoteTodos` applied to a file content. -/
def parseDailyNoteTodos (content : String) : List DailyNoteTask :=
  parseLinesFrom 0 (splitLines content)

/-- The header search shared by `findOrCreateTodoSection` and
`addTaskToTodoSection`: first line with `lines[i].trim() === header`. -/
def findHeaderIdx (header : String) : Nat → List String → Option Nat
  | _, [] => none
  | i, l :: rest =>
    if jsTrim l = header then some i else findHeaderIdx header (i + 1) rest

/-- `l.startsWith('#')`. -/
def startsWithHash (l : String) : Bool :=
  match l.data with
  | '#' :: _ => true
  | _ => false

/-- The insertion-point loop of `addTaskToTodoSection`: starting after the
header, advance `insertIndex` past every nonblank line until the next
section heading (a `#` line different from the header) or the end. -/
def insertIdxAux (header : String) : Nat → List String → Nat → Nat
  | _, [], acc => acc
  | i, l :: rest, acc =>
    if startsWithHash l && l ≠ header then acc
    else if jsTrim l ≠ "" then insertIdxAux header (i + 1) rest (i + 1)
    else insertIdxAux header (i + 1) rest acc

/-- `DailyNoteManager.addTaskToTodoSection` at the lines level.  When the
header is absent the code calls `findOrCreateTodoSection` (which pushes
`['', header, '']`) and retries; one retry suffices whenever
`header.trim() === header` (with a header that trims differently the source
recurses forever — that unreachable branch is modelled as a no-op). -/
def addTaskLines (header : String) (lines : List String) (title : String) :
    List String :=
  match findHeaderIdx header 0 lines with
  | some t =>
    let idx := insertIdxAux header (t + 1) (lines.drop (t + 1)) (t + 1)
    lines.take idx ++ ("- [ ] " ++ title) :: lines.drop idx
  | none =>
    let lines' := lines ++ ["", header, ""]
    match findHeaderIdx header 0 lines' with
    | some t =>
      let idx := insertIdxAux header (t + 1) (lines'.drop (t + 1)) (t + 1)
      lines'.take idx ++ ("- [ ] " ++ title) :: lines'.drop idx
    | none => lines'

/-- `DailyNoteManager.addTaskToTodoSection` on the file content. -/
def addTaskToTodoSection (header content title : String) : String :=
  joinLines (addTaskLines header (splitLines content) title)

/-- `DailyNoteManager.updateTaskCompletion` at the lines level: bounds
check, checkbox match, metadata strip, and the rewrite
`${indent}- [x] ${cleanTaskText} [completion:: ${completionDate}]` of the
single line `lineNumber`. -/
def updateTaskCompletionLines (lines : List String) (lineNumber : Nat)
    (completionDate : String) : Except String (List String) :=
  if lineNumber ≥ lines.length then
    .error ("Line number " ++ toString lineNumber ++ " is out of range")
  else
    match checkboxMatch (lines.getD lineNumber "").data with
    | none => .error ("No checkbox found at line " ++ toString lineNumber)
    | some (indent, _, taskText) =>
      let cleanTaskText :=
        match findCompletion taskText with
        | some (pre, _, suf) => jsTrimList (pre ++ suf)
        | none => jsTrimList taskText
      let newLine : String :=
        ⟨indent ++ ("- [x] ".data ++ cleanTaskText) ++
          (" [completion:: ".data ++ completionDate.data ++ [']'])⟩
      .ok (lines.set lineNumber newLine)

/-- `DailyNoteManager.updateTaskCompletion` on the file content. -/
def updateTaskCompletion (content : String) (lineNumber : Nat)
    (completionDate : String) : Except String String :=
  (updateTaskCompletionLines (splitLines content) lineNumber
    completionDate).map joinLines

/-! ## Error handler (`src/utils/error-handler.ts`)

The handlers receive a thrown `Error`; in the embedding a thrown error is
its message string, and JavaScript truthiness of `error?.message` is
"nonempty".  The faults injected below never carry a `response.status`, so
`handleApiError`'s status-code branch is dead and only its
message/passthrough branches are modelled. -/

/-- `sub` occurs as a contiguous substring (`String.prototype.includes`). -/
def containsCl (sub : List Char) : List Char → Bool
  | [] => sub.isEmpty
  | c :: rest => sub.isPrefixOf (c :: rest) || containsCl sub rest

/-- `ErrorHandler.handleApiError` on a thrown `Error` with message `msg`. -/
def handleApiError (msg : String) : String :=
  if msg = "" then "Unknown API error occurred" else msg

/-- `ErrorHandler.handleFileError` on a thrown `Error` with message `msg`. -/
def handleFileError (msg : String) : String :=
  if msg = "" then "File operation failed"
  else if containsCl "ENOENT".data msg.data then "File not found"
  else if containsCl "EACCES".data msg.data then "Permission denied"
  else "File error: " ++ msg

/-! ## Synchronizer state, faults and traces

`TodoSynchronizer` is constructed over a remote store (`TodoApiClient`), a
note store (`DailyNoteManager`/`ObsidianTodoParser`) and the error handler.
The two stores are mutable external state: `SyncState` holds the remote task
list, today's note (`none` = the file does not exist) and its last-modified
timestamp (as the ISO string `Date.prototype.toISOString` would produce).
External failures (network, vault I/O) are injected via `Faults`; every
collaborator call is appended to `SyncState.trace`, so "operation X was (not)
called" is a statement about the trace. -/

/-- One collaborator call, as recorded in the trace. -/
inductive OpEvent where
  | getTasksCall
  | createNoteCall
  | parseNoteCall
  | addTaskCall (title : String)
  | createTaskCall (title startDate : String)
  | getModDateCall
  | updateCompletionCall (line : Nat) (date : String)
  | completeTaskCall (id : String)
deriving Repr, DecidableEq

/-- The mutable external world plus the call trace. -/
structure SyncState where
  msftTasks : List TodoTask
  noteContent : Option String
  noteModISO : String
  nextId : Nat
  trace : List OpEvent
deriving Repr, DecidableEq

/-- Injected collaborator failures.  `some msg` = the corresponding call
throws an error whose message is `msg`; per-item faults are keyed by the
title, line or id the call receives. -/
structure Faults where
  getTasksErr : Option String
  createNoteErr : Option String
  readNoteErr : Option String
  addTaskErr : String → Option String
  createTaskErr : String → Option String
  getModDateErr : Option String
  updateCompletionErr : Nat → Option String
  completeTaskErr : String → Option String

/-- The fault-free environment. -/
def noFaults : Faults :=
  { getTasksErr := none, createNoteErr := none, readNoteErr := none
  , addTaskErr := fun _ => none, createTaskErr := fun _ => none
  , getModDateErr := none, updateCompletionErr := fun _ => none
  , completeTaskErr := fun _ => none }

/-- Engine configuration: the settings `DailyNoteManager` is constructed
with, plus today's formatted date (`moment().format(dateFormat)`). -/
structure SyncConfig where
  dailyNotePath : String
  today : String
  header : String
deriving Repr, DecidableEq

/-- `DailyNoteManager.getTodayNote`. -/
def getTodayNote (cfg : SyncConfig) : String :=
  (match cfg.dailyNotePath.data.reverse with
    | '/' :: _ => cfg.dailyNotePath
    | _ => cfg.dailyNotePath ++ "/") ++ cfg.today ++ ".md"

/-- The template `createTodayNote` writes into a fresh note. -/
def initialNoteContent (cfg : SyncConfig) : String :=
  "# " ++ cfg.today ++ "\n\n" ++ cfg.header ++ "\n\n"

/-- The `File not found: ${filePath}` message thrown by the note manager. -/
def fileNotFoundMsg (cfg : SyncConfig) : String :=
  "File not found: " ++ getTodayNote cfg

def pushEvent (st : SyncState) (e : OpEvent) : SyncState :=
  { st with trace := st.trace ++ [e] }

/-- `TodoApiClient.getTasks`: returns the remote list, or throws
`Failed to get tasks: …` on a transport fault. -/
def opGetTasks (f : Faults) (st : SyncState) :
    Except String (List TodoTask) × SyncState :=
  let st := pushEvent st .getTasksCall
  match f.getTasksErr with
  | some e => (.error ("Failed to get tasks: " ++ handleApiError e), st)
  | none => (.ok st.msftTasks, st)

/-- `DailyNoteManager.createTodayNote`: no-op when the note exists,
otherwise creates it from the template (or throws on a vault fault). -/
def opCreateTodayNote (cfg : SyncConfig) (f : Faults) (st : SyncState) :
    Except String Unit × SyncState :=
  let st := pushEvent st .createNoteCall
  match st.noteContent with
  | some _ => (.ok (), st)
  | none =>
    match f.createNoteErr with
    | some e =>
      (.error ("Failed to create today's note: " ++ handleFileError e), st)
    | none => (.ok (), { st with noteContent := some (initialNoteContent cfg) })

/-- `DailyNoteManager.parseDailyNoteTodos` including the file lookup/read. -/
def opParseNote (cfg : SyncConfig) (f : Faults) (st : SyncState) :
    Except String (List DailyNoteTask) × SyncState :=
  let st := pushEvent st .parseNoteCall
  match st.noteContent with
  | none =>
    (.error ("Failed to parse daily note todos: " ++
      handleFileError (fileNotFoundMsg cfg)), st)
  | some content =>
    match f.readNoteErr with
    | some e =>
      (.error ("Failed to parse daily note todos: " ++ handleFileError e), st)
    | none => (.ok (parseDailyNoteTodos content), st)

/-- `DailyNoteManager.addTaskToTodoSection` including lookup/read/write. -/
def opAddTask (cfg : SyncConfig) (f : Faults) (title : String)
    (st : SyncState) : Except String Unit × SyncState :=
  let st := pushEvent st (.addTaskCall title)
  match st.noteContent with
  | none =>
    (.error ("Failed to add task: " ++ handleFileError (fileNotFoundMsg cfg)),
      st)
  | some content =>
    match f.addTaskErr title with
    | some e => (.error ("Failed to add task: " ++ handleFileError e), st)
    | none =>
      (.ok (), { st with
        noteContent := some (addTaskToTodoSection cfg.header content title) })

/-- `ObsidianTodoParser.getFileModificationDate`: the note's mtime as a
`Date`, kept as the ISO string its `toISOString()` yields. -/
def opGetModDate (cfg : SyncConfig) (f : Faults) (st : SyncState) :
    Except String String × SyncState :=
  let st := pushEvent st .getModDateCall
  match st.noteContent with
  | none =>
    (.error ("Failed to get file modification date: " ++
      handleFileError (fileNotFoundMsg cfg)), st)
  | some _ =>
    match f.getModDateErr with
    | some e =>
      (.error ("Failed to get file modification date: " ++ handleFileError e),
        st)
    | none => (.ok st.noteModISO, st)

/-- Models `d.toISOString().split('T')[0]` for a timestamp already rendered
as a UTC ISO-8601 string (`toISOString` output, or a `…Z` timestamp, whose
round trip through `new Date` preserves the rendered calendar date): the
segment before the first `'T'`. -/
def jsUtcDatePart (s : String) : String := ⟨s.data.takeWhile (· ≠ 'T')⟩

/-- The remote task materialised by `TodoApiClient.createTask`: the title is
trimmed, status starts as `notStarted`, and a truthy `startDate` becomes
`${startDate}T09:00:00.000Z`; the store assigns a fresh id. -/
def mkCreatedTask (st : SyncState) (title startDate : String) : TodoTask :=
  { id := "created-" ++ toString st.nextId
  , title := jsTrim title
  , status := "notStarted"
  , startDateTime :=
      if startDate = "" then none else some (startDate ++ "T09:00:00.000Z")
  , completedDateTime := none }

/-- `TodoApiClient.createTask`: empty/whitespace titles are rejected before
any I/O; otherwise the task is appended to the remote list (or the transport
fault is thrown). -/
def opCreateTask (f : Faults) (title startDate : String) (st : SyncState) :
    Except String Unit × SyncState :=
  let st := pushEvent st (.createTaskCall title startDate)
  if jsTrim title = "" then (.error "Task title cannot be empty", st)
  else
    match f.createTaskErr title with
    | some e => (.error ("Failed to create task: " ++ handleApiError e), st)
    | none =>
      (.ok (), { st with
        msftTasks := st.msftTasks ++ [mkCreatedTask st title startDate]
      , nextId := st.nextId + 1 })

/-- `TodoApiClient.completeTask`: PATCHes the task's status to
`completed`. -/
def opCompleteTask (f : Faults) (id : String) (st : SyncState) :
    Except String Unit × SyncState :=
  let st := pushEvent st (.completeTaskCall id)
  if id = "" then (.error "Task ID cannot be empty", st)
  else
    match f.completeTaskErr id with
    | some e => (.error ("Failed to complete task: " ++ handleApiError e), st)
    | none =>
      (.ok (), { st with
        msftTasks := st.msftTasks.map fun t =>
          if t.id = id then { t with status := "completed" } else t })

/-- `DailyNoteManager.updateTaskCompletion` including lookup/read/write. -/
def opUpdateCompletion (cfg : SyncConfig) (f : Faults) (line : Nat)
    (date : String) (st : SyncState) : Except String Unit × SyncState :=
  let st := pushEvent st (.updateCompletionCall line date)
  match st.noteContent with
  | none =>
    (.error ("Failed to update task completion: " ++
      handleFileError (fileNotFoundMsg cfg)), st)
  | some content =>
    match f.updateCompletionErr line with
    | some e =>
      (.error ("Failed to update task completion: " ++ handleFileError e), st)
    | none =>
      match updateTaskCompletion content line date with
      | .error raw =>
        (.error ("Failed to update task completion: " ++ handleFileError raw),
          st)
      | .ok newContent => (.ok (), { st with noteContent := some newContent })

/-! ## `TodoSynchronizer` -/

/-- Per-phase outcome `{ newTasks, errors }`. -/
structure PhaseResult where
  newTasks : Nat
  errors : List String
deriving Repr, DecidableEq

/-- `syncCompletions`' outcome `{ completedTasks, errors }`. -/
structure CompletionPhaseResult where
  completedTasks : Nat
  errors : List String
deriving Repr, DecidableEq

/-- `SyncResult` (`src/types.ts`). -/
structure SyncResult where
  success : Bool
  newTasksFromMsft : Nat
  newTasksFromObsidian : Nat
  completedTasks : Nat
  errors : List String
deriving Repr, DecidableEq

/-- JavaScript truthiness of an optional string field. -/
def truthy : Option String → Bool
  | none => false
  | some s => !(s = "")

/-- `TodoSynchronizer.filterNewTasks`: remote tasks whose normalized title
is absent from the existing local tasks (`Set.has` over a list of
normalized titles is list membership). -/
def filterNewTasks (msftTasks : List TodoTask)
    (existingObsidianTasks : List DailyNoteTask) : List TodoTask :=
  let obsidianTaskTitles := existingObsidianTasks.map fun t => normTitle t.title
  msftTasks.filter fun m => !(obsidianTaskTitles.contains (normTitle m.title))

/-- `TodoSynchronizer.filterNewObsidianTasks`: local tasks whose normalized
title is absent from the remote tasks. -/
def filterNewObsidianTasks (obsidianTasks : List DailyNoteTask)
    (msftTasks : List TodoTask) : List DailyNoteTask :=
  let msftTaskTitles := msftTasks.map fun t => normTitle t.title
  obsidianTasks.filter fun o => !(msftTaskTitles.contains (normTitle o.title))

/-- Phase 1's per-item loop: append each new task to the note; a failure is
recorded as `Failed to add task "${title}": …` and processing continues. -/
def addLoop (cfg : SyncConfig) (f : Faults) :
    List TodoTask → SyncState → Nat → List String → PhaseResult × SyncState
  | [], st, n, errs => ({ newTasks := n, errors := errs }, st)
  | task :: rest, st, n, errs =>
    match opAddTask cfg f task.title st with
    | (.ok _, st') => addLoop cfg f rest st' (n + 1) errs
    | (.error e, st') =>
      addLoop cfg f rest st' n
        (errs ++ ["Failed to add task \"" ++ task.title ++ "\": " ++
          handleFileError e])

/-- `TodoSynchronizer.syncMsftToObsidian`.  The enclosing `try` turns any
phase-level throw into the single aggregate error
`Microsoft Todo sync failed: ${handleApiError(error)}`. -/
def syncMsftToObsidian (cfg : SyncConfig) (f : Faults) (st : SyncState) :
    PhaseResult × SyncState :=
  match opGetTasks f st with
  | (.error e, st) =>
    ({ newTasks := 0
     , errors := ["Microsoft Todo sync failed: " ++ handleApiError e] }, st)
  | (.ok msftTasks, st) =>
    match opCreateTodayNote cfg f st with
    | (.error e, st) =>
      ({ newTasks := 0
       , errors := ["Microsoft Todo sync failed: " ++ handleApiError e] }, st)
    | (.ok _, st) =>
      match opParseNote cfg f st with
      | (.error e, st) =>
        ({ newTasks := 0
         , errors := ["Microsoft Todo sync failed: " ++ handleApiError e] },
          st)
      | (.ok existingTasks, st) =>
        addLoop cfg f (filterNewTasks msftTasks existingTasks) st 0 []

/-- Phase 2's per-item loop: create each new task remotely with the shared
`startDate`; a failure is recorded as `Failed to create task "${title}": …`
and processing continues. -/
def createLoop (cfg : SyncConfig) (f : Faults) (startDate : String) :
    List DailyNoteTask → SyncState → Nat → List String →
      PhaseResult × SyncState
  | [], st, n, errs => ({ newTasks := n, errors := errs }, st)
  | task :: rest, st, n, errs =>
    match opCreateTask f task.title startDate st with
    | (.ok _, st') => createLoop cfg f startDate rest st' (n + 1) errs
    | (.error e, st') =>
      createLoop cfg f startDate rest st' n
        (errs ++ ["Failed to create task \"" ++ task.title ++ "\": " ++
          handleApiError e])

/-- `TodoSynchronizer.syncObsidianToMsft`.  Parses today's note, keeps the
incomplete tasks, short-circuits when there are none, otherwise fetches the
remote list, reads the note's modification date once, and creates each new
task with `startDate = fileModDate.toISOString().split('T')[0]`.  The
enclosing `try` yields the aggregate
`Obsidian sync failed: ${handleFileError(error)}`. -/
def syncObsidianToMsft (cfg : SyncConfig) (f : Faults) (st : SyncState) :
    PhaseResult × SyncState :=
  match opParseNote cfg f st with
  | (.error e, st) =>
    ({ newTasks := 0
     , errors := ["Obsidian sync failed: " ++ handleFileError e] }, st)
  | (.ok dailyNoteTasks, st) =>
    let incompleteTasks := dailyNoteTasks.filter fun t => !t.completed
    if incompleteTasks.isEmpty then ({ newTasks := 0, errors := [] }, st)
    else
      match opGetTasks f st with
      | (.error e, st) =>
        ({ newTasks := 0
         , errors := ["Obsidian sync failed: " ++ handleFileError e] }, st)
      | (.ok msftTasks, st) =>
        let newObsidianTasks := filterNewObsidianTasks incompleteTasks msftTasks
        match opGetModDate cfg f st with
        | (.error e, st) =>
          ({ newTasks := 0
           , errors := ["Obsidian sync failed: " ++ handleFileError e] }, st)
        | (.ok modISO, st) =>
          createLoop cfg f (jsUtcDatePart modISO) newObsidianTasks st 0 []

/-- `syncCompletions`' first loop (remote → local): for each completed
remote task with a truthy completion timestamp, find the first local task
with equal normalized title; if it is not yet completed, rewrite its line
with the date part of the timestamp. -/
def completionLoop1 (cfg : SyncConfig) (f : Faults)
    (dailyNoteTasks : List DailyNoteTask) :
    List TodoTask → SyncState → Nat → List String →
      Nat × List String × SyncState
  | [], st, n, errs => (n, errs, st)
  | m :: rest, st, n, errs =>
    if decide (m.status = "completed") && truthy m.completedDateTime then
      match dailyNoteTasks.find? (fun o =>
          decide (normTitle o.title = normTitle m.title)) with
      | some obs =>
        if !obs.completed then
          match opUpdateCompletion cfg f obs.line
              (jsUtcDatePart (m.completedDateTime.getD "")) st with
          | (.ok _, st') => completionLoop1 cfg f dailyNoteTasks rest st' (n + 1) errs
          | (.error e, st') =>
            completionLoop1 cfg f dailyNoteTasks rest st' n
              (errs ++ ["Failed to complete Obsidian task \"" ++ m.title ++
                "\": " ++ handleFileError e])
        else completionLoop1 cfg f dailyNoteTasks rest st n errs
      | none => completionLoop1 cfg f dailyNoteTasks rest st n errs
    else completionLoop1 cfg f dailyNoteTasks rest st n errs

/-- `syncCompletions`' second loop (local → remote): for each completed
local task with a truthy completion date, find the first remote task with
equal normalized title; if its (snapshot) status is not `completed`, invoke
the remote complete operation on its id. -/
def completionLoop2 (cfg : SyncConfig) (f : Faults)
    (msftTasks : List TodoTask) :
    List DailyNoteTask → SyncState → Nat → List String →
      Nat × List String × SyncState
  | [], st, n, errs => (n, errs, st)
  | o :: rest, st, n, errs =>
    if o.completed && truthy o.completionDate then
      match msftTasks.find? (fun m =>
          decide (normTitle m.title = normTitle o.title)) with
      | some m =>
        if !decide (m.status = "completed") then
          match opCompleteTask f m.id st with
          | (.ok _, st') => completionLoop2 cfg f msftTasks rest st' (n + 1) errs
          | (.error e, st') =>
            completionLoop2 cfg f msftTasks rest st' n
              (errs ++ ["Failed to complete Microsoft Todo task \"" ++
                o.title ++ "\": " ++ handleApiError e])
        else completionLoop2 cfg f msftTasks rest st n errs
      | none => completionLoop2 cfg f msftTasks rest st n errs
    else completionLoop2 cfg f msftTasks rest st n errs

/-- `TodoSynchronizer.syncCompletions`: snapshot both sides once, then run
the two directional loops over the snapshots.  The enclosing `try` yields
the aggregate `Completion sync failed: ${handleApiError(error)}`. -/
def syncCompletions (cfg : SyncConfig) (f : Faults) (st : SyncState) :
    CompletionPhaseResult × SyncState :=
  match opParseNote cfg f st with
  | (.error e, st) =>
    ({ completedTasks := 0
     , errors := ["Completion sync failed: " ++ handleApiError e] }, st)
  | (.ok dailyNoteTasks, st) =>
    match opGetTasks f st with
    | (.error e, st) =>
      ({ completedTasks := 0
       , errors := ["Completion sync failed: " ++ handleApiError e] }, st)
    | (.ok msftTasks, st) =>
      match completionLoop1 cfg f dailyNoteTasks msftTasks st 0 [] with
      | (n1, errs1, st) =>
        match completionLoop2 cfg f msftTasks dailyNoteTasks st n1 errs1 with
        | (n2, errs2, st) =>
          ({ completedTasks := n2, errors := errs2 }, st)

/-- `TodoSynchronizer.performFullSync`: the three phases in order, counts
merged fieldwise, error lists concatenated, `success` iff no phase reported
an error.  Each phase runs in its own fault environment. -/
def performFullSync (cfg : SyncConfig) (f1 f2 f3 : Faults) (st : SyncState) :
    SyncResult × SyncState :=
  match syncMsftToObsidian cfg f1 st with
  | (msftToObsidian, st1) =>
    match syncObsidianToMsft cfg f2 st1 with
    | (obsidianToMsft, st2) =>
      match syncCompletions cfg f3 st2 with
      | (completions, st3) =>
        ({ success := decide (msftToObsidian.errors.length = 0) &&
             decide (obsidianToMsft.errors.length = 0) &&
             decide (completions.errors.length = 0)
         , newTasksFromMsft := msftToObsidian.newTasks
         , newTasksFromObsidian := obsidianToMsft.newTasks
         , completedTasks := completions.completedTasks
         , errors := msftToObsidian.errors ++ obsidianToMsft.errors ++
             completions.errors }, st3)

/-! ## Characterization lemmas for the collaborator operations -/

theorem pushEvent_noteContent (st : SyncState) (e : OpEvent) :
    (pushEvent st e).noteContent = st.noteContent := rfl

theorem pushEvent_msftTasks (st : SyncState) (e : OpEvent) :
    (pushEvent st e).msftTasks = st.msftTasks := rfl

theorem opGetTasks_ok (f : Faults) (st : SyncState)
    (h : f.getTasksErr = none) :
    opGetTasks f st = (.ok st.msftTasks, pushEvent st .getTasksCall) := by
  simp [opGetTasks, h, pushEvent]

theorem opCreateTodayNote_exists (cfg : SyncConfig) (f : Faults)
    (st : SyncState) (c : String) (h : st.noteContent = some c) :
    opCreateTodayNote cfg f st = (.ok (), pushEvent st .createNoteCall) := by
  simp [opCreateTodayNote, h, pushEvent]

theorem opCreateTodayNote_creates (cfg : SyncConfig) (f : Faults)
    (st : SyncState) (h : st.noteContent = none)
    (hf : f.createNoteErr = none) :
    opCreateTodayNote cfg f st =
      (.ok (), { pushEvent st .createNoteCall with
        noteContent := some (initialNoteContent cfg) }) := by
  simp [opCreateTodayNote, h, hf, pushEvent]

theorem opParseNote_ok (cfg : SyncConfig) (f : Faults) (st : SyncState)
    (c : String) (h : st.noteContent = some c) (hf : f.readNoteErr = none) :
    opParseNote cfg f st =
      (.ok (parseDailyNoteTodos c), pushEvent st .parseNoteCall) := by
  simp [opParseNote, h, hf, pushEvent]

theorem opAddTask_ok (cfg : SyncConfig) (f : Faults) (st : SyncState)
    (c title : String) (h : st.noteContent = some c)
    (hf : f.addTaskErr title = none) :
    opAddTask cfg f title st =
      (.ok (), { pushEvent st (.addTaskCall title) with
        noteContent := some (addTaskToTodoSection cfg.header c title) }) := by
  simp [opAddTask, h, hf, pushEvent]

theorem opAddTask_err (cfg : SyncConfig) (f : Faults) (st : SyncState)
    (c title e : String) (h : st.noteContent = some c)
    (hf : f.addTaskErr title = some e) :
    opAddTask cfg f title st =
      (.error ("Failed to add task: " ++ handleFileError e),
        pushEvent st (.addTaskCall title)) := by
  simp [opAddTask, h, hf, pushEvent]

theorem opGetModDate_ok (cfg : SyncConfig) (f : Faults) (st : SyncState)
    (c : String) (h : st.noteContent = some c) (hf : f.getModDateErr = none) :
    opGetModDate cfg f st = (.ok st.noteModISO, pushEvent st .getModDateCall) := by
  simp [opGetModDate, h, hf, pushEvent]

/-! ## C1: result aggregation in `performFullSync` -/

/-- C1: `performFullSync` runs the three phase functions once each, in
order, on the successively produced states; the returned `SyncResult` copies
phase 1's count into `newTasksFromMsft`, phase 2's into
`newTasksFromObsidian`, phase 3's completion count into `completedTasks`,
concatenates the three error lists in phase order, and has `success = true`
iff all three phases reported zero errors. -/
theorem performFullSync_aggregates (cfg : SyncConfig) (f1 f2 f3 : Faults)
    (st : SyncState) :
    (performFullSync cfg f1 f2 f3 st).1.newTasksFromMsft =
        (syncMsftToObsidian cfg f1 st).1.newTasks ∧
    (performFullSync cfg f1 f2 f3 st).1.newTasksFromObsidian =
        (syncObsidianToMsft cfg f2 (syncMsftToObsidian cfg f1 st).2).1.newTasks ∧
    (performFullSync cfg f1 f2 f3 st).1.completedTasks =
        (syncCompletions cfg f3
          (syncObsidianToMsft cfg f2 (syncMsftToObsidian cfg f1 st).2).2).1.completedTasks ∧
    (performFullSync cfg f1 f2 f3 st).1.errors =
        (syncMsftToObsidian cfg f1 st).1.errors ++
        (syncObsidianToMsft cfg f2 (syncMsftToObsidian cfg f1 st).2).1.errors ++
        (syncCompletions cfg f3
          (syncObsidianToMsft cfg f2 (syncMsftToObsidian cfg f1 st).2).2).1.errors ∧
    (performFullSync cfg f1 f2 f3 st).2 =
        (syncCompletions cfg f3
          (syncObsidianToMsft cfg f2 (syncMsftToObsidian cfg f1 st).2).2).2 ∧
    ((performFullSync cfg f1 f2 f3 st).1.success = true ↔
      (syncMsftToObsidian cfg f1 st).1.errors = [] ∧
      (syncObsidianToMsft cfg f2 (syncMsftToObsidian cfg f1 st).2).1.errors = [] ∧
      (syncCompletions cfg f3
        (syncObsidianToMsft cfg f2 (syncMsftToObsidian cfg f1 st).2).2).1.errors = []) := by
  rcases h1 : syncMsftToObsidian cfg f1 st with ⟨r1, s1⟩
  rcases h2 : syncObsidianToMsft cfg f2 s1 with ⟨r2, s2⟩
  rcases h3 : syncCompletions cfg f3 s2 with ⟨r3, s3⟩
  simp [performFullSync, h1, h2, h3, List.length_eq_zero, and_assoc]

/-! ## C2: the matcher is an exact set difference on normalized titles -/

/-- C2: `filterNewTasks` returns exactly the remote tasks whose normalized
(lowercased, trimmed) title has no equal among the local tasks,
`filterNewObsidianTasks` returns exactly the local tasks whose normalized
title has no equal among the remote tasks, and consequently every
remote/local pair with equal normalized titles is placed in neither result:
matching is exact equality after normalization. -/
theorem matcher_exact_normalized (R : List TodoTask) (L : List DailyNoteTask) :
    (∀ m : TodoTask, m ∈ filterNewTasks R L ↔
      m ∈ R ∧ ∀ l ∈ L, normTitle l.title ≠ normTitle m.title) ∧
    (∀ l : DailyNoteTask, l ∈ filterNewObsidianTasks L R ↔
      l ∈ L ∧ ∀ m ∈ R, normTitle m.title ≠ normTitle l.title) ∧
    (∀ m l, m ∈ R → l ∈ L → normTitle m.title = normTitle l.title →
      m ∉ filterNewTasks R L ∧ l ∉ filterNewObsidianTasks L R) := by
  have h1 : ∀ m : TodoTask, m ∈ filterNewTasks R L ↔
      m ∈ R ∧ ∀ l ∈ L, normTitle l.title ≠ normTitle m.title := by
    intro m
    simp only [filterNewTasks, List.mem_filter, List.contains, List.elem_eq_mem,
      Bool.not_eq_true', decide_eq_false_iff_not, List.mem_map, not_exists,
      not_and]
  have h2 : ∀ l : DailyNoteTask, l ∈ filterNewObsidianTasks L R ↔
      l ∈ L ∧ ∀ m ∈ R, normTitle m.title ≠ normTitle l.title := by
    intro l
    simp only [filterNewObsidianTasks, List.mem_filter, List.contains,
      List.elem_eq_mem, Bool.not_eq_true', decide_eq_false_iff_not,
      List.mem_map, not_exists, not_and]
  refine ⟨h1, h2, fun m l hm hl heq => ⟨?_, ?_⟩⟩
  · intro hmem
    exact ((h1 m).1 hmem).2 l hl heq.symm
  · intro hmem
    exact ((h2 l).1 hmem).2 m hm heq

/-! ## C8: empty incomplete set short-circuits phase 2 -/

/-- C8: when today's note parses to no incomplete task,
`syncObsidianToMsft` returns `{created: 0, errors: []}` at once: the stores
are untouched and the only collaborator call of the invocation is the note
parse — in particular the remote store's list operation is never called. -/
theorem syncObsidianToMsft_short_circuit (cfg : SyncConfig) (f : Faults)
    (st : SyncState) (content : String)
    (hc : st.noteContent = some content) (hread : f.readNoteErr = none)
    (hempty : (parseDailyNoteTodos content).filter (fun t => !t.completed) = []) :
    (syncObsidianToMsft cfg f st).1 = { newTasks := 0, errors := [] } ∧
    (syncObsidianToMsft cfg f st).2.msftTasks = st.msftTasks ∧
    (syncObsidianToMsft cfg f st).2.noteContent = st.noteContent ∧
    (syncObsidianToMsft cfg f st).2.trace =
      st.trace ++ [OpEvent.parseNoteCall] ∧
    OpEvent.getTasksCall ∉
      (syncObsidianToMsft cfg f st).2.trace.drop st.trace.length := by
  have hop := opParseNote_ok cfg f st content hc hread
  have hres : syncObsidianToMsft cfg f st =
      ({ newTasks := 0, errors := [] }, pushEvent st .parseNoteCall) := by
    simp only [syncObsidianToMsft, hop, hempty, List.isEmpty_nil, if_true]
  rw [hres]
  refine ⟨rfl, rfl, rfl, rfl, ?_⟩
  show OpEvent.getTasksCall ∉ (st.trace ++ [OpEvent.parseNoteCall]).drop st.trace.length
  rw [List.drop_left]
  simp

/-! ## C10: `updateTaskCompletion` rewrites exactly one line -/

theorem parseLinesFrom_line_bounds (ls : List String) :
    ∀ (k : Nat), ∀ t ∈ parseLinesFrom k ls, k ≤ t.line ∧ t.line < k + ls.length := by
  induction ls with
  | nil => intro k t ht; simp [parseLinesFrom] at ht
  | cons l rest ih =>
    intro k t ht
    simp only [parseLinesFrom] at ht
    rcases hld : lineTaskData l.data with _ | ⟨a, b, c⟩ <;> rw [hld] at ht
    · have := ih (k + 1) t ht
      simp only [List.length_cons]
      omega
    · rcases List.mem_cons.1 ht with rfl | ht'
      · simp
      · have := ih (k + 1) t ht'
        simp only [List.length_cons]
        omega

/-- C10: for an in-range line index whose line matches the checkbox
pattern, `updateTaskCompletion` succeeds and rewrites only that single line:
the rewritten file has the same number of lines and every other line is
unchanged; consequently the line indices computed by one parse of the note
remain in range after the write (as they are during `syncCompletions`'
successive completion writes). -/
theorem updateTaskCompletion_frame (lines : List String) (i : Nat)
    (date : String) (hi : i < lines.length)
    (hm : (checkboxMatch (lines.getD i "").data).isSome) :
    ∃ newLine, updateTaskCompletionLines lines i date = .ok (lines.set i newLine) ∧
      (lines.set i newLine).length = lines.length ∧
      (∀ j, j ≠ i → (lines.set i newLine).getD j "" = lines.getD j "") ∧
      (∀ t ∈ parseLinesFrom 0 lines, t.line < (lines.set i newLine).length) := by
  rcases Option.isSome_iff_exists.1 hm with ⟨⟨ind, c, txt⟩, hcm⟩
  refine ⟨⟨ind ++ ("- [x] ".data ++ (match findCompletion txt with
      | some (pre, _, suf) => jsTrimList (pre ++ suf)
      | none => jsTrimList txt)) ++
      (" [completion:: ".data ++ date.data ++ [']'])⟩,
    ?_, List.length_set _ _ _, fun j hj => ?_, fun t ht => ?_⟩
  · rw [updateTaskCompletionLines, if_neg (by omega), hcm]
  · simp [List.getD_eq_getElem?_getD, List.getElem?_set_ne (Ne.symm hj)]
  · rw [List.length_set]
    have := (parseLinesFrom_line_bounds lines 0 t ht).2
    omega

/-! ## C4: a phase-level failure yields one aggregate error and
does not stop the later phases -/

theorem opGetTasks_err (f : Faults) (st : SyncState) (e : String)
    (h : f.getTasksErr = some e) :
    opGetTasks f st = (.error ("Failed to get tasks: " ++ handleApiError e),
      pushEvent st .getTasksCall) := by
  simp [opGetTasks, h, pushEvent]

theorem opCreateTodayNote_err (cfg : SyncConfig) (f : Faults) (st : SyncState)
    (e : String) (h : st.noteContent = none) (hf : f.createNoteErr = some e) :
    opCreateTodayNote cfg f st =
      (.error ("Failed to create today's note: " ++ handleFileError e),
        pushEvent st .createNoteCall) := by
  simp [opCreateTodayNote, h, hf, pushEvent]

theorem opParseNote_err (cfg : SyncConfig) (f : Faults) (st : SyncState)
    (c e : String) (h : st.noteContent = some c) (hf : f.readNoteErr = some e) :
    opParseNote cfg f st =
      (.error ("Failed to parse daily note todos: " ++ handleFileError e),
        pushEvent st .parseNoteCall) := by
  simp [opParseNote, h, hf, pushEvent]

/-- C4: when a phase-level operation of phase 1 fails outright — the remote
fetch, the note creation, or the note read — `syncMsftToObsidian` returns
zero created tasks and exactly one aggregate error string; `performFullSync`
still executes phases 2 and 3 on the resulting state and returns a
`SyncResult` (the phase and engine functions are total: no exception escapes
them) whose `success` is `false` and whose error list is the aggregate error
followed by the later phases' errors. -/
theorem syncMsftToObsidian_phase_failure (cfg : SyncConfig) (f1 f2 f3 : Faults)
    (st : SyncState)
    (h : f1.getTasksErr.isSome ∨ (st.noteContent = none ∧ f1.createNoteErr.isSome) ∨
      f1.readNoteErr.isSome) :
    ∃ msg, (syncMsftToObsidian cfg f1 st).1 = { newTasks := 0, errors := [msg] } ∧
      (performFullSync cfg f1 f2 f3 st).1 =
        { success := false
        , newTasksFromMsft := 0
        , newTasksFromObsidian :=
            (syncObsidianToMsft cfg f2 (syncMsftToObsidian cfg f1 st).2).1.newTasks
        , completedTasks :=
            (syncCompletions cfg f3
              (syncObsidianToMsft cfg f2 (syncMsftToObsidian cfg f1 st).2).2).1.completedTasks
        , errors := msg ::
            ((syncObsidianToMsft cfg f2 (syncMsftToObsidian cfg f1 st).2).1.errors ++
             (syncCompletions cfg f3
               (syncObsidianToMsft cfg f2 (syncMsftToObsidian cfg f1 st).2).2).1.errors) } := by
  have hres : ∃ msg s1, syncMsftToObsidian cfg f1 st =
      ({ newTasks := 0, errors := [msg] }, s1) := by
    rcases hg : f1.getTasksErr with _ | e
    · rcases h with hsome | ⟨hnc, hcre⟩ | hre
      · rw [hg] at hsome; exact absurd hsome (by simp)
      · rcases Option.isSome_iff_exists.1 hcre with ⟨e, he⟩
        refine ⟨"Microsoft Todo sync failed: " ++
          handleApiError ("Failed to create today's note: " ++ handleFileError e),
          pushEvent (pushEvent st .getTasksCall) .createNoteCall, ?_⟩
        simp only [syncMsftToObsidian, opGetTasks_ok f1 st hg,
          opCreateTodayNote_err cfg f1 (pushEvent st .getTasksCall) e
            (by simpa [pushEvent] using hnc) he]
      · rcases Option.isSome_iff_exists.1 hre with ⟨e, he⟩
        rcases hnc : st.noteContent with _ | c
        · rcases hcre : f1.createNoteErr with _ | e'
          · refine ⟨"Microsoft Todo sync failed: " ++
              handleApiError ("Failed to parse daily note todos: " ++
                handleFileError e),
              pushEvent { pushEvent (pushEvent st .getTasksCall) .createNoteCall
                with noteContent := some (initialNoteContent cfg) }
                .parseNoteCall, ?_⟩
            simp only [syncMsftToObsidian, opGetTasks_ok f1 st hg,
              opCreateTodayNote_creates cfg f1 (pushEvent st .getTasksCall)
                (by simpa [pushEvent] using hnc) hcre,
              opParseNote_err cfg f1
                { pushEvent (pushEvent st .getTasksCall) .createNoteCall with
                  noteContent := some (initialNoteContent cfg) }
                (initialNoteContent cfg) e rfl he]
          · refine ⟨"Microsoft Todo sync failed: " ++
              handleApiError ("Failed to create today's note: " ++
                handleFileError e'),
              pushEvent (pushEvent st .getTasksCall) .createNoteCall, ?_⟩
            simp only [syncMsftToObsidian, opGetTasks_ok f1 st hg,
              opCreateTodayNote_err cfg f1 (pushEvent st .getTasksCall) e'
                (by simpa [pushEvent] using hnc) hcre]
        · refine ⟨"Microsoft Todo sync failed: " ++
            handleApiError ("Failed to parse daily note todos: " ++
              handleFileError e),
            pushEvent (pushEvent (pushEvent st .getTasksCall) .createNoteCall)
              .parseNoteCall, ?_⟩
          simp only [syncMsftToObsidian, opGetTasks_ok f1 st hg,
            opCreateTodayNote_exists cfg f1 (pushEvent st .getTasksCall) c
              (by simpa [pushEvent] using hnc),
            opParseNote_err cfg f1
              (pushEvent (pushEvent st .getTasksCall) .createNoteCall) c e
              (by simpa [pushEvent] using hnc) he]
    · refine ⟨"Microsoft Todo sync failed: " ++
        handleApiError ("Failed to get tasks: " ++ handleApiError e),
        pushEvent st .getTasksCall, ?_⟩
      simp only [syncMsftToObsidian, opGetTasks_err f1 st e hg]
  rcases hres with ⟨msg, s1, hphase⟩
  refine ⟨msg, by rw [hphase], ?_⟩
  rcases h2 : syncObsidianToMsft cfg f2 s1 with ⟨r2, s2⟩
  rcases h3 : syncCompletions cfg f3 s2 with ⟨r3, s3⟩
  simp [performFullSync, hphase, h2, h3]

/-! ## C3: per-item failures are isolated within a creation phase -/

/-- The error strings phase 1's loop accumulates: one entry, naming the
task's title, per new task whose note append fails. -/
def expectedAddErrors (f : Faults) : List TodoTask → List String
  | [] => []
  | t :: rest =>
    match f.addTaskErr t.title with
    | some e =>
      ("Failed to add task \"" ++ t.title ++ "\": " ++
        handleFileError ("Failed to add task: " ++ handleFileError e)) ::
        expectedAddErrors f rest
    | none => expectedAddErrors f rest

theorem expectedAddErrors_mem (f : Faults) :
    ∀ (ts : List TodoTask), ∀ err ∈ expectedAddErrors f ts,
      ∃ t ∈ ts, ∃ e, f.addTaskErr t.title = some e ∧
        err = "Failed to add task \"" ++ t.title ++ "\": " ++
          handleFileError ("Failed to add task: " ++ handleFileError e) := by
  intro ts
  induction ts with
  | nil => intro err herr; simp [expectedAddErrors] at herr
  | cons t rest ih =>
    intro err herr
    rw [expectedAddErrors] at herr
    rcases hf : f.addTaskErr t.title with _ | e <;> rw [hf] at herr
    · rcases ih err herr with ⟨t', ht', e', he', rfl⟩
      exact ⟨t', List.mem_cons_of_mem _ ht', e', he', rfl⟩
    · rcases List.mem_cons.1 herr with rfl | herr'
      · exact ⟨t, List.mem_cons_self _ _, e, hf, rfl⟩
      · rcases ih err herr' with ⟨t', ht', e', he', rfl⟩
        exact ⟨t', List.mem_cons_of_mem _ ht', e', he', rfl⟩

theorem addLoop_characterization (cfg : SyncConfig) (f : Faults) :
    ∀ (ts : List TodoTask) (st : SyncState) (n : Nat) (errs : List String)
      (c : String), st.noteContent = some c →
      (addLoop cfg f ts st n errs).1.newTasks =
        n + (ts.filter (fun t => (f.addTaskErr t.title).isNone)).length ∧
      (addLoop cfg f ts st n errs).1.errors = errs ++ expectedAddErrors f ts := by
  intro ts
  induction ts with
  | nil => intro st n errs c hc; simp [addLoop, expectedAddErrors]
  | cons t rest ih =>
    intro st n errs c hc
    rcases hf : f.addTaskErr t.title with _ | e
    · rw [addLoop, opAddTask_ok cfg f st c t.title hc hf]
      have hnext := ih ({ pushEvent st (.addTaskCall t.title) with
          noteContent := some (addTaskToTodoSection cfg.header c t.title) })
        (n + 1) errs _ rfl
      refine ⟨?_, ?_⟩
      · rw [hnext.1, List.filter_cons_of_pos (by simp [hf])]
        simp [Nat.add_comm, Nat.add_assoc, Nat.add_left_comm]
      · rw [hnext.2, expectedAddErrors, hf]
    · rw [addLoop, opAddTask_err cfg f st c t.title e hc hf]
      have hnext := ih (pushEvent st (.addTaskCall t.title)) n
        (errs ++ ["Failed to add task \"" ++ t.title ++ "\": " ++
          handleFileError ("Failed to add task: " ++ handleFileError e)])
        c (by simpa [pushEvent] using hc)
      refine ⟨?_, ?_⟩
      · rw [hnext.1, List.filter_cons_of_neg (by simp [hf])]
      · rw [hnext.2, expectedAddErrors, hf]
        simp

/-! ## C9: one modification-date read, shared by all created tasks -/

theorem opCreateTask_trace (f : Faults) (title s : String) (st : SyncState) :
    (opCreateTask f title s st).2.trace =
      st.trace ++ [OpEvent.createTaskCall title s] := by
  rcases hf : f.createTaskErr title with _ | e <;>
    simp [opCreateTask, hf, pushEvent] <;> split <;> rfl

theorem opCreateTask_msftTasks (f : Faults) (title s : String) (st : SyncState) :
    (opCreateTask f title s st).2.msftTasks = st.msftTasks ∨
    (opCreateTask f title s st).2.msftTasks =
      st.msftTasks ++ [mkCreatedTask (pushEvent st (.createTaskCall title s)) title s] := by
  rcases hf : f.createTaskErr title with _ | e <;>
    simp [opCreateTask, hf, pushEvent] <;> split <;> simp [pushEvent]

theorem createLoop_delta (cfg : SyncConfig) (f : Faults) (s : String) :
    ∀ (ts : List DailyNoteTask) (st : SyncState) (n : Nat) (errs : List String),
      ∃ delta added,
        (createLoop cfg f s ts st n errs).2.trace = st.trace ++ delta ∧
        (∀ ev ∈ delta, ∃ t, t ∈ ts ∧ ev = OpEvent.createTaskCall t.title s) ∧
        (createLoop cfg f s ts st n errs).2.msftTasks = st.msftTasks ++ added ∧
        (∀ task ∈ added, task.startDateTime =
          if s = "" then none else some (s ++ "T09:00:00.000Z")) ∧
        (createLoop cfg f s ts st n errs).2.noteContent = st.noteContent := by
  intro ts
  induction ts with
  | nil =>
    intro st n errs
    exact ⟨[], [], by simp [createLoop], by simp, by simp [createLoop], by simp,
      by simp [createLoop]⟩
  | cons t rest ih =>
    intro st n errs
    have htr := opCreateTask_trace f t.title s st
    have hms := opCreateTask_msftTasks f t.title s st
    have hnc : (opCreateTask f t.title s st).2.noteContent = st.noteContent := by
      rcases hf : f.createTaskErr t.title with _ | e <;>
        simp [opCreateTask, hf, pushEvent] <;> split <;> rfl
    rcases hstep : opCreateTask f t.title s st with ⟨res, st'⟩
    rw [hstep] at htr hms hnc
    have hnext : ∀ n' errs', ∃ delta added,
        (createLoop cfg f s rest st' n' errs').2.trace = st'.trace ++ delta ∧
        (∀ ev ∈ delta, ∃ t', t' ∈ rest ∧ ev = OpEvent.createTaskCall t'.title s) ∧
        (createLoop cfg f s rest st' n' errs').2.msftTasks = st'.msftTasks ++ added ∧
        (∀ task ∈ added, task.startDateTime =
          if s = "" then none else some (s ++ "T09:00:00.000Z")) ∧
        (createLoop cfg f s rest st' n' errs').2.noteContent = st'.noteContent :=
      fun n' errs' => ih st' n' errs'
    have hgoal : ∀ n' errs',
        createLoop cfg f s (t :: rest) st n errs =
          createLoop cfg f s rest st' n' errs' →
        ∃ delta added,
          (createLoop cfg f s (t :: rest) st n errs).2.trace = st.trace ++ delta ∧
          (∀ ev ∈ delta, ∃ t', t' ∈ t :: rest ∧ ev = OpEvent.createTaskCall t'.title s) ∧
          (createLoop cfg f s (t :: rest) st n errs).2.msftTasks = st.msftTasks ++ added ∧
          (∀ task ∈ added, task.startDateTime =
            if s = "" then none else some (s ++ "T09:00:00.000Z")) ∧
          (createLoop cfg f s (t :: rest) st n errs).2.noteContent = st.noteContent := by
      intro n' errs' heq
      rcases hnext n' errs' with ⟨delta, added, h1, h2, h3, h4, h5⟩
      rcases hms with hms | hms
      · refine ⟨OpEvent.createTaskCall t.title s :: delta, added, ?_, ?_, ?_, h4, ?_⟩
        · rw [heq, h1, htr]; simp
        · intro ev hev
          rcases List.mem_cons.1 hev with rfl | hev
          · exact ⟨t, List.mem_cons_self _ _, rfl⟩
          · rcases h2 ev hev with ⟨t', ht', rfl⟩
            exact ⟨t', List.mem_cons_of_mem _ ht', rfl⟩
        · rw [heq, h3, hms]
        · rw [heq, h5, hnc]
      · refine ⟨OpEvent.createTaskCall t.title s :: delta,
          mkCreatedTask (pushEvent st (.createTaskCall t.title s)) t.title s :: added,
          ?_, ?_, ?_, ?_, ?_⟩
        · rw [heq, h1, htr]; simp
        · intro ev hev
          rcases List.mem_cons.1 hev with rfl | hev
          · exact ⟨t, List.mem_cons_self _ _, rfl⟩
          · rcases h2 ev hev with ⟨t', ht', rfl⟩
            exact ⟨t', List.mem_cons_of_mem _ ht', rfl⟩
        · rw [heq, h3, hms]; simp
        · intro task htask
          rcases List.mem_cons.1 htask with rfl | htask
          · simp [mkCreatedTask]
          · exact h4 task htask
        · rw [heq, h5, hnc]
    rcases res with e | u
    · exact hgoal n (errs ++ ["Failed to create task \"" ++ t.title ++ "\": " ++
        handleApiError e]) (by rw [createLoop, hstep])
    · exact hgoal (n + 1) errs (by rw [createLoop, hstep])

/-- C9: in an invocation of `syncObsidianToMsft` that reaches the creation
step, the note's last-modified date is read exactly once, every remote
create call of that invocation receives the same start date — the date part
of that single read — and every task the invocation adds to the remote
store carries that start date (as `${startDate}T09:00:00.000Z`). -/
theorem syncObsidianToMsft_shared_startDate (cfg : SyncConfig) (f : Faults)
    (st : SyncState) (content : String)
    (hc : st.noteContent = some content) (hread : f.readNoteErr = none)
    (hget : f.getTasksErr = none) (hmod : f.getModDateErr = none)
    (hne : (parseDailyNoteTodos content).filter (fun t => !t.completed) ≠ []) :
    ∃ delta, (syncObsidianToMsft cfg f st).2.trace = st.trace ++ delta ∧
      delta.count OpEvent.getModDateCall = 1 ∧
      (∀ t s, OpEvent.createTaskCall t s ∈ delta →
        s = jsUtcDatePart st.noteModISO) ∧
      ∃ added, (syncObsidianToMsft cfg f st).2.msftTasks = st.msftTasks ++ added ∧
        (jsUtcDatePart st.noteModISO ≠ "" → ∀ task ∈ added,
          task.startDateTime =
            some (jsUtcDatePart st.noteModISO ++ "T09:00:00.000Z")) := by
  have hie : ((parseDailyNoteTodos content).filter (fun t => !t.completed)).isEmpty = false := by
    rcases hl : (parseDailyNoteTodos content).filter (fun t => !t.completed) with _ | ⟨a, as⟩
    · exact absurd hl hne
    · rw [hl]; rfl
  have hphase : syncObsidianToMsft cfg f st =
      createLoop cfg f (jsUtcDatePart st.noteModISO)
        (filterNewObsidianTasks
          ((parseDailyNoteTodos content).filter (fun t => !t.completed))
          st.msftTasks)
        (pushEvent (pushEvent (pushEvent st .parseNoteCall) .getTasksCall)
          .getModDateCall) 0 [] := by
    simp only [syncObsidianToMsft, opParseNote_ok cfg f st content hc hread,
      hie, Bool.false_eq_true, if_false,
      opGetTasks_ok f (pushEvent st .parseNoteCall) hget,
      opGetModDate_ok cfg f (pushEvent (pushEvent st .parseNoteCall) .getTasksCall)
        content (by simpa [pushEvent] using hc) hmod]
    rfl
  rcases createLoop_delta cfg f (jsUtcDatePart st.noteModISO)
      (filterNewObsidianTasks
        ((parseDailyNoteTodos content).filter (fun t => !t.completed))
        st.msftTasks)
      (pushEvent (pushEvent (pushEvent st .parseNoteCall) .getTasksCall)
        .getModDateCall) 0 []
    with ⟨delta, added, h1, h2, h3, h4, _⟩
  refine ⟨[OpEvent.parseNoteCall, OpEvent.getTasksCall, OpEvent.getModDateCall] ++
    delta, ?_, ?_, ?_, added, ?_, ?_⟩
  · rw [hphase, h1]; simp [pushEvent]
  · have hzero : delta.count OpEvent.getModDateCall = 0 := by
      rw [List.count_eq_zero]
      intro hmem
      rcases h2 _ hmem with ⟨t', _, ht'⟩
      exact absurd ht' (by simp)
    simp [List.count_append, hzero, List.count_cons]
  · intro t s hmem
    rcases List.mem_append.1 hmem with hmem | hmem
    · simp at hmem
    · rcases h2 _ hmem with ⟨t', _, ht'⟩
      rw [OpEvent.createTaskCall.injEq] at ht'
      exact ht'.2
  · rw [hphase, h3]; simp [pushEvent]
  · intro hnzero task htask
    have := h4 task htask
    rw [if_neg hnzero] at this
    exact this

/-! ## C6: completed local tasks complete their remote counterpart -/

theorem opCompleteTask_trace (f : Faults) (id : String) (st : SyncState) :
    (opCompleteTask f id st).2.trace = st.trace ++ [OpEvent.completeTaskCall id] := by
  rcases hf : f.completeTaskErr id with _ | e <;>
    simp [opCompleteTask, hf, pushEvent] <;> split <;> rfl

theorem opUpdateCompletion_trace (cfg : SyncConfig) (f : Faults) (line : Nat)
    (date : String) (st : SyncState) :
    (opUpdateCompletion cfg f line date st).2.trace =
      st.trace ++ [OpEvent.updateCompletionCall line date] := by
  rcases hc : st.noteContent with _ | c
  · simp [opUpdateCompletion, hc, pushEvent]
  · rcases hf : f.updateCompletionErr line with _ | e
    · rcases hu : updateTaskCompletion c line date with raw | nc <;>
        simp [opUpdateCompletion, hc, hf, hu, pushEvent]
    · simp [opUpdateCompletion, hc, hf, pushEvent]

theorem completionLoop2_trace_mono (cfg : SyncConfig) (f : Faults)
    (msftTasks : List TodoTask) :
    ∀ (ts : List DailyNoteTask) (st : SyncState) (n : Nat) (errs : List String),
      ∃ delta, (completionLoop2 cfg f msftTasks ts st n errs).2.2.trace =
        st.trace ++ delta := by
  intro ts
  induction ts with
  | nil => intro st n errs; exact ⟨[], by simp [completionLoop2]⟩
  | cons o rest ih =>
    intro st n errs
    rw [completionLoop2]
    by_cases hfire : (o.completed && truthy o.completionDate) = true
    · rw [if_pos hfire]
      rcases hfind : msftTasks.find? (fun m =>
          decide (normTitle m.title = normTitle o.title)) with _ | m
      · simp only [hfind]; exact ih st n errs
      · simp only [hfind]
        by_cases hstat : (!decide (m.status = "completed")) = true
        · rw [if_pos hstat]
          have htr := opCompleteTask_trace f m.id st
          rcases hstep : opCompleteTask f m.id st with ⟨res, st'⟩
          rw [hstep] at htr
          rcases res with e | u
          · simp only [hstep]
            rcases ih st' n (errs ++ ["Failed to complete Microsoft Todo task \"" ++
              o.title ++ "\": " ++ handleApiError e]) with ⟨delta, hdelta⟩
            exact ⟨[OpEvent.completeTaskCall m.id] ++ delta,
              by rw [hdelta, htr, List.append_assoc]⟩
          · simp only [hstep]
            rcases ih st' (n + 1) errs with ⟨delta, hdelta⟩
            exact ⟨[OpEvent.completeTaskCall m.id] ++ delta,
              by rw [hdelta, htr, List.append_assoc]⟩
        · rw [if_neg hstat]
          exact ih st n errs
    · rw [if_neg hfire]
      exact ih st n errs

theorem completionLoop2_fires (cfg : SyncConfig) (f : Faults)
    (msftTasks : List TodoTask) (obs : DailyNoteTask) (mt : TodoTask)
    (d : String) (hcomp : obs.completed = true)
    (hcd : obs.completionDate = some d) (hdne : d ≠ "")
    (hfind : msftTasks.find? (fun m =>
      decide (normTitle m.title = normTitle obs.title)) = some mt)
    (hstat : mt.status ≠ "completed") :
    ∀ (ts : List DailyNoteTask) (st : SyncState) (n : Nat) (errs : List String),
      obs ∈ ts →
      OpEvent.completeTaskCall mt.id ∈
        (completionLoop2 cfg f msftTasks ts st n errs).2.2.trace := by
  intro ts
  induction ts with
  | nil => intro st n errs hmem; simp at hmem
  | cons o rest ih =>
    intro st n errs hmem
    rcases List.mem_cons.1 hmem with rfl | hmem'
    · rw [completionLoop2]
      have hfire : (obs.completed && truthy obs.completionDate) = true := by
        simp [hcomp, hcd, truthy, hdne]
      rw [if_pos hfire]
      simp only [hfind]
      rw [if_pos (by simp [hstat])]
      have htr := opCompleteTask_trace f mt.id st
      rcases hstep : opCompleteTask f mt.id st with ⟨res, st'⟩
      rw [hstep] at htr
      have hin : OpEvent.completeTaskCall mt.id ∈ st'.trace := by
        rw [htr]; simp
      rcases res with e | u
      · simp only [hstep]
        rcases completionLoop2_trace_mono cfg f msftTasks rest st' n
          (errs ++ ["Failed to complete Microsoft Todo task \"" ++ obs.title ++
            "\": " ++ handleApiError e]) with ⟨delta, hdelta⟩
        rw [hdelta]
        exact List.mem_append_left _ hin
      · simp only [hstep]
        rcases completionLoop2_trace_mono cfg f msftTasks rest st' (n + 1) errs
          with ⟨delta, hdelta⟩
        rw [hdelta]
        exact List.mem_append_left _ hin
    · rw [completionLoop2]
      by_cases hfire : (o.completed && truthy o.completionDate) = true
      · rw [if_pos hfire]
        rcases hfind2 : msftTasks.find? (fun m =>
            decide (normTitle m.title = normTitle o.title)) with _ | m
        · simp only [hfind2]; exact ih st n errs hmem'
        · simp only [hfind2]
          by_cases hstat2 : (!decide (m.status = "completed")) = true
          · rw [if_pos hstat2]
            rcases hstep : opCompleteTask f m.id st with ⟨res, st'⟩
            rcases res with e | u
            · simp only [hstep]
              exact ih st' n _ hmem'
            · simp only [hstep]
              exact ih st' (n + 1) errs hmem'
          · rw [if_neg hstat2]
            exact ih st n errs hmem'
      · rw [if_neg hfire]
        exact ih st n errs hmem'

theorem opUpdateCompletion_msftTasks (cfg : SyncConfig) (f : Faults)
    (line : Nat) (date : String) (st : SyncState) :
    (opUpdateCompletion cfg f line date st).2.msftTasks = st.msftTasks := by
  rcases hc : st.noteContent with _ | c
  · simp [opUpdateCompletion, hc, pushEvent]
  · rcases hf : f.updateCompletionErr line with _ | e
    · rcases hu : updateTaskCompletion c line date with raw | nc <;>
        simp [opUpdateCompletion, hc, hf, hu, pushEvent]
    · simp [opUpdateCompletion, hc, hf, pushEvent]

theorem completionLoop1_msftTasks (cfg : SyncConfig) (f : Faults)
    (dailyNoteTasks : List DailyNoteTask) :
    ∀ (ts : List TodoTask) (st : SyncState) (n : Nat) (errs : List String),
      (completionLoop1 cfg f dailyNoteTasks ts st n errs).2.2.msftTasks =
        st.msftTasks := by
  intro ts
  induction ts with
  | nil => intro st n errs; simp [completionLoop1]
  | cons m rest ih =>
    intro st n errs
    rw [completionLoop1]
    by_cases hfire : (decide (m.status = "completed") && truthy m.completedDateTime) = true
    · rw [if_pos hfire]
      rcases hfind : dailyNoteTasks.find? (fun o =>
          decide (normTitle o.title = normTitle m.title)) with _ | obs
      · simp only [hfind]; exact ih st n errs
      · simp only [hfind]
        by_cases hcompl : (!obs.completed) = true
        · rw [if_pos hcompl]
          rcases hstep : opUpdateCompletion cfg f obs.line
              (jsUtcDatePart (m.completedDateTime.getD "")) st with ⟨res, st'⟩
          have hms' := opUpdateCompletion_msftTasks cfg f obs.line
            (jsUtcDatePart (m.completedDateTime.getD "")) st
          rw [hstep] at hms'
          rcases res with e | u
          · simp only [hstep]
            rw [ih st' n _, hms']
          · simp only [hstep]
            rw [ih st' (n + 1) errs, hms']
        · rw [if_neg hcompl]
          exact ih st n errs
    · rw [if_neg hfire]
      exact ih st n errs

/-- The configuration used by the concrete witnesses and counterexamples
below (the default settings of the plugin, today = 2024-01-05). -/
def wCfg : SyncConfig :=
  { dailyNotePath := "Daily Notes", today := "2024-01-05", header := "## ToDo" }

/-- Concrete state for the C6 counterexample: the note holds a checked task
without completion metadata; the remote store holds the same title, not
completed. -/
def cexC6St : SyncState :=
  { msftTasks := [{ id := "1", title := "Task A", status := "notStarted"
                  , startDateTime := none, completedDateTime := none }]
  , noteContent := some "- [x] Task A", noteModISO := "", nextId := 0
  , trace := [] }

/-- C6 as stated is false on the code: a local task that is checked but
carries no `[completion:: …]` metadata fails the loop's
`obsTask.completionDate` truthiness test, so no remote complete call is
made.  Concretely: the note `- [x] Task A` parses to a completed local task
with no completion date, the remote store holds "Task A" with status
`notStarted`, yet `syncCompletions` never invokes the remote complete
operation (its trace gains only the two fetch calls) and reports zero
completions. -/
theorem syncCompletions_skips_completed_without_date :
    (parseDailyNoteTodos "- [x] Task A" =
      [{ title := "Task A", completed := true, line := 0, completionDate := none }]) ∧
    (syncCompletions wCfg noFaults cexC6St).2.trace =
      [OpEvent.parseNoteCall, OpEvent.getTasksCall] ∧
    (OpEvent.completeTaskCall "1" ∉ (syncCompletions wCfg noFaults cexC6St).2.trace) ∧
    (syncCompletions wCfg noFaults cexC6St).1.completedTasks = 0 := by
  refine ⟨by decide, by decide, by decide, by decide⟩

/-- C6 (amended): for every local task parsed as completed *and carrying a
(nonempty) completion date* whose normalized title first matches a remote
task whose status is not `completed`, `syncCompletions` invokes the remote
complete operation on that remote task's id. -/
theorem syncCompletions_completes_remote (cfg : SyncConfig) (f : Faults)
    (st : SyncState) (content : String) (obs : DailyNoteTask) (mt : TodoTask)
    (d : String) (hc : st.noteContent = some content)
    (hread : f.readNoteErr = none) (hget : f.getTasksErr = none)
    (hobs : obs ∈ parseDailyNoteTodos content) (hcomp : obs.completed = true)
    (hcd : obs.completionDate = some d) (hdne : d ≠ "")
    (hfind : st.msftTasks.find? (fun m =>
      decide (normTitle m.title = normTitle obs.title)) = some mt)
    (hstat : mt.status ≠ "completed") :
    OpEvent.completeTaskCall mt.id ∈ (syncCompletions cfg f st).2.trace := by
  have hphase : syncCompletions cfg f st =
      (match completionLoop1 cfg f (parseDailyNoteTodos content) st.msftTasks
          (pushEvent (pushEvent st .parseNoteCall) .getTasksCall) 0 [] with
       | (n1, errs1, stA) =>
         match completionLoop2 cfg f st.msftTasks (parseDailyNoteTodos content)
             stA n1 errs1 with
         | (n2, errs2, stB) => ({ completedTasks := n2, errors := errs2 }, stB)) := by
    simp only [syncCompletions, opParseNote_ok cfg f st content hc hread,
      opGetTasks_ok f (pushEvent st .parseNoteCall) hget]
    rfl
  rcases hloop1 : completionLoop1 cfg f (parseDailyNoteTodos content)
      st.msftTasks (pushEvent (pushEvent st .parseNoteCall) .getTasksCall) 0 []
    with ⟨n1, errs1, stA⟩
  rw [hphase, hloop1]
  exact completionLoop2_fires cfg f st.msftTasks obs mt d hcomp hcd hdne hfind
    hstat (parseDailyNoteTodos content) stA n1 errs1 hobs

/-! ## C7: idempotence of the remote-to-local phase -/

/-- Right trim: drop trailing `\s` characters. -/
def rtrimCl (l : List Char) : List Char := (l.reverse.dropWhile isJsSpace).reverse

theorem jsTrimList_eq_rtrim_ltrim (l : List Char) :
    jsTrimList l = rtrimCl (l.dropWhile isJsSpace) := rfl

theorem rtrimCl_cons (c : Char) (rest : List Char) :
    rtrimCl (c :: rest) =
      if isJsSpace c && (rtrimCl rest).isEmpty then [] else c :: rtrimCl rest := by
  have hiff : (rest.reverse.dropWhile isJsSpace).isEmpty = (rtrimCl rest).isEmpty := by
    rcases hx : rest.reverse.dropWhile isJsSpace with _ | ⟨a, as⟩ <;>
      simp [rtrimCl, hx]
  rw [rtrimCl, List.reverse_cons, List.dropWhile_append, hiff]
  by_cases he : (rtrimCl rest).isEmpty = true
  · rw [if_pos he]
    by_cases hc : isJsSpace c = true <;>
      simp [List.dropWhile_cons, hc, he, List.isEmpty_iff.1 he]
  · rw [if_neg he, if_neg (by simp [he]), List.reverse_append]
    rfl

theorem ltrim_rtrim_comm (l : List Char) :
    (rtrimCl l).dropWhile isJsSpace = rtrimCl (l.dropWhile isJsSpace) := by
  induction l with
  | nil => rfl
  | cons c rest ih =>
    by_cases hc : isJsSpace c = true
    · rw [rtrimCl_cons]
      by_cases he : (rtrimCl rest).isEmpty = true
      · rw [if_pos (by simp [hc, he])]
        rw [List.dropWhile_cons, if_pos hc, ← ih, List.isEmpty_iff.1 he]
      · rw [if_neg (by simp [he])]
        simp only [List.dropWhile_cons, hc, if_true]
        exact ih
    · rw [rtrimCl_cons, if_neg (by simp [hc])]
      simp only [List.dropWhile_cons, hc, Bool.false_eq_true, if_false]
      rw [rtrimCl_cons, if_neg (by simp [hc])]

theorem rtrimCl_idempotent (l : List Char) : rtrimCl (rtrimCl l) = rtrimCl l := by
  rw [rtrimCl, rtrimCl, List.reverse_reverse, List.dropWhile_idempotent]

theorem jsTrimList_idempotent (l : List Char) :
    jsTrimList (jsTrimList l) = jsTrimList l := by
  rw [jsTrimList_eq_rtrim_ltrim, jsTrimList_eq_rtrim_ltrim, ltrim_rtrim_comm,
    List.dropWhile_idempotent, rtrimCl_idempotent]

theorem normTitle_trimmed (t : String) :
    normTitle ⟨jsTrimList t.data⟩ = normTitle t := by
  show jsToLower (jsTrim ⟨jsTrimList t.data⟩) = jsToLower (jsTrim t)
  rw [jsTrim, jsTrim]
  show jsToLower ⟨jsTrimList (jsTrimList t.data)⟩ = _
  rw [jsTrimList_idempotent]

/-- The title contribution of a single line in `parseDailyNoteTodos`
(titles do not depend on the line index). -/
def lineTitle (l : String) : Option String :=
  (lineTaskData l.data).map (fun p => p.1)

theorem parseLinesFrom_titles (ls : List String) :
    ∀ (k : Nat), (parseLinesFrom k ls).map (fun t => t.title) =
      ls.filterMap lineTitle := by
  induction ls with
  | nil => intro k; rfl
  | cons l rest ih =>
    intro k
    rw [parseLinesFrom]
    rcases hld : lineTaskData l.data with _ | ⟨a, b, c⟩ <;>
      simp [hld, List.filterMap_cons, lineTitle, ih (k + 1)]

theorem findCompletion_none_cons (c : Char) (l : List Char)
    (h : findCompletion (c :: l) = none) : findCompletion l = none := by
  rw [findCompletion] at h
  rcases h1 : completionAt (c :: l) with _ | ⟨d0, suf⟩
  · rw [h1] at h
    rcases h2 : findCompletion l with _ | ⟨pre, d1, suf⟩
    · rfl
    · rw [h2] at h; simp at h
  · rw [h1] at h; simp at h

theorem findCompletion_none_suffix (l l' : List Char) (hs : l' <:+ l)
    (h : findCompletion l = none) : findCompletion l' = none := by
  rcases hs with ⟨pre, rfl⟩
  revert h
  induction pre with
  | nil => exact fun h => h
  | cons c cs ih => exact fun h => ih (findCompletion_none_cons c (cs ++ l') h)

theorem completionAt_space_singleton (c0 : Char) (h : isJsSpace c0 = true) :
    completionAt [c0] = none := by
  rw [isJsSpace] at h
  simp only [Bool.or_eq_true, decide_eq_true_eq] at h
  rcases h with ((((((h | h) | h) | h) | h) | h) | h) | h <;> subst h <;> rfl

theorem completionAt_not_prefix (l : List Char)
    (h : "[completion::".data.isPrefixOf l = false) : completionAt l = none := by
  rw [completionAt, h]
  rfl

theorem findCompletion_space_singleton (c0 : Char) (h : isJsSpace c0 = true) :
    findCompletion [c0] = none := by
  rw [findCompletion, completionAt_space_singleton c0 h]
  rfl

theorem jsTrimList_dropWhile (l : List Char) :
    jsTrimList (l.dropWhile isJsSpace) = jsTrimList l := by
  rw [jsTrimList_eq_rtrim_ltrim, jsTrimList_eq_rtrim_ltrim,
    List.dropWhile_idempotent]

/-- Parsing the line `- [ ] ${title}` appended by phase 1 yields the trimmed
title, provided the title does not itself contain completion metadata. -/
theorem lineTitle_box (t : String) (hnc : findCompletion t.data = none) :
    lineTitle ("- [ ] " ++ t) = some ⟨jsTrimList t.data⟩ := by
  have hdata : ("- [ ] " ++ t).data =
      '-' :: ' ' :: '[' :: ' ' :: ']' :: ' ' :: t.data := rfl
  have hstep : checkboxMatch ('-' :: ' ' :: '[' :: ' ' :: ']' :: ' ' :: t.data) =
      (match t.data.dropWhile isJsSpace with
       | [] =>
         (match (' ' :: t.data).reverse with
          | [] => none
          | lc :: _ => some (([] : List Char), ' ', [lc]))
       | r5 => some ([], ' ', r5)) := rfl
  rw [lineTitle, hdata]
  rcases hdw : t.data.dropWhile isJsSpace with _ | ⟨a, as⟩
  · have hall : ∀ x ∈ t.data, isJsSpace x := by
      rw [← List.dropWhile_eq_nil_iff]
      exact hdw
    have htrim : jsTrimList t.data = [] := by
      rw [← jsTrimList_dropWhile, hdw]
      rfl
    rcases hr : t.data.reverse with _ | ⟨b, bs⟩
    · have ht : t.data = [] := by
        have := congrArg List.reverse hr
        simpa using this
      have hcb : checkboxMatch ('-' :: ' ' :: '[' :: ' ' :: ']' :: ' ' :: t.data) =
          some ([], ' ', [' ']) := by
        rw [hstep, hdw, List.reverse_cons, hr]
        rfl
      simp only [lineTaskData, hcb, findCompletion_space_singleton ' ' rfl]
      rw [htrim]
      rfl
    · have hb : isJsSpace b := by
        refine hall b ?_
        have : b ∈ t.data.reverse := hr ▸ List.mem_cons_self _ _
        simpa using this
      have hcb : checkboxMatch ('-' :: ' ' :: '[' :: ' ' :: ']' :: ' ' :: t.data) =
          some ([], ' ', [b]) := by
        rw [hstep, hdw, List.reverse_cons, hr]
        rfl
      simp only [lineTaskData, hcb, findCompletion_space_singleton b hb]
      have hjb : jsTrimList [b] = [] := by
        simp [jsTrimList, List.dropWhile, hb]
      rw [hjb, htrim]
      rfl
  · have hsuf : findCompletion (a :: as) = none := by
      refine findCompletion_none_suffix t.data (a :: as) ?_ hnc
      rw [← hdw]
      exact List.dropWhile_suffix _
    have hcb : checkboxMatch ('-' :: ' ' :: '[' :: ' ' :: ']' :: ' ' :: t.data) =
        some ([], ' ', a :: as) := by
      rw [hstep, hdw]
    simp only [lineTaskData, hcb, hsuf]
    have hja : jsTrimList (a :: as) = jsTrimList t.data := by
      rw [← hdw, jsTrimList_dropWhile]
    rw [hja]
    rfl

theorem mem_splitLines_no_newline (s : String) :
    ∀ x ∈ splitLines s, '\n' ∉ x.data := by
  intro x hx
  rcases List.mem_map.1 hx with ⟨cl, hcl, rfl⟩
  exact mem_splitCl_not_newline s.data cl hcl

theorem splitLines_joinLines (ls : List String) (hne : ls ≠ [])
    (hnl : ∀ x ∈ ls, '\n' ∉ x.data) : splitLines (joinLines ls) = ls := by
  rw [splitLines, joinLines]
  have h1 : ls.map String.data ≠ [] := by
    intro h
    exact hne (by simpa using h)
  have h2 : ∀ x ∈ ls.map String.data, '\n' ∉ x := by
    intro x hx
    rcases List.mem_map.1 hx with ⟨y, hy, rfl⟩
    exact hnl y hy
  rw [splitCl_joinCl (ls.map String.data) h1 h2, List.map_map]
  have hid : ((fun cl : List Char => (⟨cl⟩ : String)) ∘ String.data) = id :=
    funext fun s => rfl
  rw [hid, List.map_id]

theorem mem_take_cons_drop (ls : List String) (idx : Nat) (y x : String)
    (hx : x ∈ ls) : x ∈ ls.take idx ++ y :: ls.drop idx := by
  rcases List.mem_append.1 ((List.take_append_drop idx ls).symm ▸ hx) with h | h
  · exact List.mem_append_left _ h
  · exact List.mem_append_right _ (List.mem_cons_of_mem _ h)

theorem mem_take_cons_drop_elim (ls : List String) (idx : Nat) (y x : String)
    (hx : x ∈ ls.take idx ++ y :: ls.drop idx) : x = y ∨ x ∈ ls := by
  rcases List.mem_append.1 hx with h | h
  · exact Or.inr (List.mem_of_mem_take h)
  · rcases List.mem_cons.1 h with rfl | h
    · exact Or.inl rfl
    · exact Or.inr (List.mem_of_mem_drop h)

theorem addTaskLines_mem_old (header : String) (ls : List String) (t : String) :
    ∀ x ∈ ls, x ∈ addTaskLines header ls t := by
  intro x hx
  rw [addTaskLines]
  rcases h1 : findHeaderIdx header 0 ls with _ | k
  · simp only [h1]
    rcases h2 : findHeaderIdx header 0 (ls ++ ["", header, ""]) with _ | k
    · simp only [h2]
      exact List.mem_append_left _ hx
    · simp only [h2]
      exact mem_take_cons_drop _ _ _ _ (List.mem_append_left _ hx)
  · simp only [h1]
    exact mem_take_cons_drop _ _ _ _ hx

theorem findHeaderIdx_appended (header : String) (hjt : jsTrim header = header) :
    ∀ (start : Nat) (l1 : List String),
      findHeaderIdx header start (l1 ++ ["", header, ""]) ≠ none := by
  intro start l1
  induction l1 generalizing start with
  | nil =>
    intro hcon
    rw [List.nil_append, findHeaderIdx] at hcon
    by_cases hq : jsTrim "" = header
    · rw [if_pos hq] at hcon
      simp at hcon
    · rw [if_neg hq, findHeaderIdx, if_pos hjt] at hcon
      simp at hcon
  | cons a as iha =>
    intro hcon
    rw [List.cons_append, findHeaderIdx] at hcon
    by_cases hq : jsTrim a = header
    · rw [if_pos hq] at hcon
      simp at hcon
    · rw [if_neg hq] at hcon
      exact iha (start + 1) hcon

theorem addTaskLines_mem_new (header : String) (ls : List String) (t : String)
    (hjt : jsTrim header = header) :
    ("- [ ] " ++ t) ∈ addTaskLines header ls t := by
  rw [addTaskLines]
  rcases h1 : findHeaderIdx header 0 ls with _ | k
  · simp only [h1]
    rcases h2 : findHeaderIdx header 0 (ls ++ ["", header, ""]) with _ | k
    · exact absurd h2 (findHeaderIdx_appended header hjt 0 ls)
    · simp only [h2]
      exact List.mem_append_right _ (List.mem_cons_self _ _)
  · simp only [h1]
    exact List.mem_append_right _ (List.mem_cons_self _ _)

theorem addTaskLines_sub (header : String) (ls : List String) (t : String) :
    ∀ x ∈ addTaskLines header ls t,
      x ∈ ls ∨ x = "- [ ] " ++ t ∨ x = "" ∨ x = header := by
  intro x hx
  rw [addTaskLines] at hx
  rcases h1 : findHeaderIdx header 0 ls with _ | k <;> simp only [h1] at hx
  · rcases h2 : findHeaderIdx header 0 (ls ++ ["", header, ""]) with _ | k <;>
      simp only [h2] at hx
    · rcases List.mem_append.1 hx with h | h
      · exact Or.inl h
      · simp only [List.mem_cons, List.not_mem_nil, or_false] at h
        rcases h with rfl | rfl | rfl
        · exact Or.inr (Or.inr (Or.inl rfl))
        · exact Or.inr (Or.inr (Or.inr rfl))
        · exact Or.inr (Or.inr (Or.inl rfl))
    · rcases mem_take_cons_drop_elim _ _ _ _ hx with h | h
      · exact Or.inr (Or.inl h)
      · rcases List.mem_append.1 h with h | h
        · exact Or.inl h
        · simp only [List.mem_cons, List.not_mem_nil, or_false] at h
          rcases h with rfl | rfl | rfl
          · exact Or.inr (Or.inr (Or.inl rfl))
          · exact Or.inr (Or.inr (Or.inr rfl))
          · exact Or.inr (Or.inr (Or.inl rfl))
  · rcases mem_take_cons_drop_elim _ _ _ _ hx with h | h
    · exact Or.inr (Or.inl h)
    · exact Or.inl h

theorem addTaskLines_ne_nil (header : String) (ls : List String) (t : String)
    (hjt : jsTrim header = header) : addTaskLines header ls t ≠ [] :=
  fun h => by
    have := addTaskLines_mem_new header ls t hjt
    rw [h] at this
    simp at this

/-- Today's note contains a line whose parsed title normalizes like `x`. -/
def HasTitle (c : String) (x : String) : Prop :=
  ∃ l ∈ splitLines c, ∃ t', lineTitle l = some t' ∧ normTitle t' = normTitle x

theorem hasTitle_contains (c x : String) (h : HasTitle c x) :
    ((parseDailyNoteTodos c).map (fun t => normTitle t.title)).contains
      (normTitle x) = true := by
  rcases h with ⟨l, hl, t', ht', hnorm⟩
  rw [List.contains, List.elem_eq_mem, decide_eq_true_eq]
  have : t' ∈ (parseDailyNoteTodos c).map (fun t => t.title) := by
    rw [parseDailyNoteTodos, parseLinesFrom_titles]
    exact List.mem_filterMap.2 ⟨l, hl, ht'⟩
  rcases List.mem_map.1 this with ⟨task, htask, rfl⟩
  exact hnorm ▸ List.mem_map.2 ⟨task, htask, rfl⟩

theorem contains_hasTitle (c x : String)
    (h : ((parseDailyNoteTodos c).map (fun t => normTitle t.title)).contains
      (normTitle x) = true) : HasTitle c x := by
  rw [List.contains, List.elem_eq_mem, decide_eq_true_eq] at h
  rcases List.mem_map.1 h with ⟨task, htask, hnorm⟩
  have : task.title ∈ (parseDailyNoteTodos c).map (fun t => t.title) :=
    List.mem_map.2 ⟨task, htask, rfl⟩
  rw [parseDailyNoteTodos, parseLinesFrom_titles] at this
  rcases List.mem_filterMap.1 this with ⟨l, hl, hline⟩
  exact ⟨l, hl, task.title, hline, hnorm⟩

theorem no_newline_box_line (t : String) (ht : '\n' ∉ t.data) :
    '\n' ∉ ("- [ ] " ++ t).data := by
  intro hmem
  have hdata : ("- [ ] " ++ t).data = "- [ ] ".data ++ t.data := rfl
  rw [hdata] at hmem
  rcases List.mem_append.1 hmem with h | h
  · simp at h
  · exact ht h

theorem splitLines_addTask (header c t : String) (hh : '\n' ∉ header.data)
    (ht : '\n' ∉ t.data) (hjt : jsTrim header = header) :
    splitLines (addTaskToTodoSection header c t) =
      addTaskLines header (splitLines c) t := by
  rw [addTaskToTodoSection]
  refine splitLines_joinLines _ (addTaskLines_ne_nil header _ t hjt) ?_
  intro x hx
  rcases addTaskLines_sub header (splitLines c) t x hx with h | h | h | h
  · exact mem_splitLines_no_newline c x h
  · subst h; exact no_newline_box_line t ht
  · subst h; simp
  · subst h; exact hh

theorem hasTitle_addTask_pres (header c t x : String) (hh : '\n' ∉ header.data)
    (ht : '\n' ∉ t.data) (hjt : jsTrim header = header) (h : HasTitle c x) :
    HasTitle (addTaskToTodoSection header c t) x := by
  rcases h with ⟨l, hl, t', ht', hnorm⟩
  refine ⟨l, ?_, t', ht', hnorm⟩
  rw [splitLines_addTask header c t hh ht hjt]
  exact addTaskLines_mem_old header _ t l hl

theorem hasTitle_addTask_self (header c t : String) (hh : '\n' ∉ header.data)
    (ht : '\n' ∉ t.data) (hjt : jsTrim header = header)
    (hnc : findCompletion t.data = none) :
    HasTitle (addTaskToTodoSection header c t) t := by
  refine ⟨"- [ ] " ++ t, ?_, ⟨jsTrimList t.data⟩, lineTitle_box t hnc,
    normTitle_trimmed t⟩
  rw [splitLines_addTask header c t hh ht hjt]
  exact addTaskLines_mem_new header _ t hjt

theorem addLoop_msftTasks (cfg : SyncConfig) (f : Faults) :
    ∀ (ts : List TodoTask) (st : SyncState) (n : Nat) (errs : List String),
      (addLoop cfg f ts st n errs).2.msftTasks = st.msftTasks := by
  intro ts
  induction ts with
  | nil => intro st n errs; rfl
  | cons t rest ih =>
    intro st n errs
    have hop : ∀ st' : SyncState, (opAddTask cfg f t.title st').2.msftTasks =
        st'.msftTasks := by
      intro st'
      rcases hc : st'.noteContent with _ | c
      · simp [opAddTask, hc, pushEvent]
      · rcases hf : f.addTaskErr t.title with _ | e <;>
          simp [opAddTask, hc, hf, pushEvent]
    rw [addLoop]
    rcases hstep : opAddTask cfg f t.title st with ⟨res, st'⟩
    have := hop st
    rw [hstep] at this
    rcases res with e | u
    · simp only [hstep]
      rw [ih st' n _, this]
    · simp only [hstep]
      rw [ih st' (n + 1) errs, this]

theorem addLoop_titles (cfg : SyncConfig) (hh : '\n' ∉ cfg.header.data)
    (hjt : jsTrim cfg.header = cfg.header) :
    ∀ (ts : List TodoTask) (st : SyncState) (n : Nat) (errs : List String)
      (c : String), st.noteContent = some c →
      (∀ t ∈ ts, '\n' ∉ t.title.data ∧ findCompletion t.title.data = none) →
      ∃ c', (addLoop cfg noFaults ts st n errs).2.noteContent = some c' ∧
        (∀ x, HasTitle c x → HasTitle c' x) ∧
        (∀ t ∈ ts, HasTitle c' t.title) := by
  intro ts
  induction ts with
  | nil =>
    intro st n errs c hc _
    exact ⟨c, hc, fun x h => h, by simp⟩
  | cons t rest ih =>
    intro st n errs c hc hts
    have hthead := hts t (List.mem_cons_self _ _)
    rw [addLoop, opAddTask_ok cfg noFaults st c t.title hc rfl]
    rcases ih ({ pushEvent st (.addTaskCall t.title) with
        noteContent := some (addTaskToTodoSection cfg.header c t.title) })
        (n + 1) errs (addTaskToTodoSection cfg.header c t.title) rfl
        (fun t' ht' => hts t' (List.mem_cons_of_mem _ ht'))
      with ⟨c', hc', hpres, htitles⟩
    refine ⟨c', hc', ?_, ?_⟩
    · intro x hx
      exact hpres x (hasTitle_addTask_pres cfg.header c t.title x hh
        hthead.1 hjt hx)
    · intro t' ht'
      rcases List.mem_cons.1 ht' with rfl | ht'
      · exact hpres t'.title (hasTitle_addTask_self cfg.header c t'.title hh
          hthead.1 hjt hthead.2)
      · exact htitles t' ht'

theorem phase1_run_some (cfg : SyncConfig) (st : SyncState) (c0 : String)
    (hc : st.noteContent = some c0) :
    syncMsftToObsidian cfg noFaults st =
      addLoop cfg noFaults
        (filterNewTasks st.msftTasks (parseDailyNoteTodos c0))
        (pushEvent (pushEvent (pushEvent st .getTasksCall) .createNoteCall)
          .parseNoteCall) 0 [] := by
  simp only [syncMsftToObsidian, opGetTasks_ok noFaults st rfl,
    opCreateTodayNote_exists cfg noFaults (pushEvent st .getTasksCall) c0
      (by simpa [pushEvent] using hc),
    opParseNote_ok cfg noFaults
      (pushEvent (pushEvent st .getTasksCall) .createNoteCall) c0
      (by simpa [pushEvent] using hc) rfl]

theorem phase1_run_none (cfg : SyncConfig) (st : SyncState)
    (hc : st.noteContent = none) :
    syncMsftToObsidian cfg noFaults st =
      addLoop cfg noFaults (filterNewTasks st.msftTasks
        (parseDailyNoteTodos (initialNoteContent cfg)))
        (pushEvent { pushEvent (pushEvent st .getTasksCall) .createNoteCall with
          noteContent := some (initialNoteContent cfg) } .parseNoteCall) 0 [] := by
  simp only [syncMsftToObsidian, opGetTasks_ok noFaults st rfl,
    opCreateTodayNote_creates cfg noFaults (pushEvent st .getTasksCall)
      (by simpa [pushEvent] using hc) rfl,
    opParseNote_ok cfg noFaults
      { pushEvent (pushEvent st .getTasksCall) .createNoteCall with
        noteContent := some (initialNoteContent cfg) }
      (initialNoteContent cfg) rfl rfl]

theorem second_run_zero (cfg : SyncConfig) (st1 : SyncState) (c' : String)
    (hc : st1.noteContent = some c')
    (hall : ∀ m ∈ st1.msftTasks, HasTitle c' m.title) :
    (syncMsftToObsidian cfg noFaults st1).1 = { newTasks := 0, errors := [] } := by
  rw [phase1_run_some cfg st1 c' hc]
  have hfil : filterNewTasks st1.msftTasks (parseDailyNoteTodos c') = [] := by
    simp only [filterNewTasks, List.filter_eq_nil_iff]
    intro m hm
    have hc2 := hasTitle_contains c' m.title (hall m hm)
    rw [hc2]
    simp
  rw [hfil]
  rfl

/-- C7 (amended): running `syncMsftToObsidian` twice back to back, fault
free and with no external mutation in between, yields zero created tasks
(and no errors) on the second call — provided the configured section header
is a trim-stable single line and no remote title contains a newline or an
inline `[completion:: …]` annotation (for such titles the appended line
parses back to a different normalized title and the phase is *not*
idempotent; see the counterexample). -/
theorem syncMsftToObsidian_idempotent (cfg : SyncConfig) (st : SyncState)
    (hh : '\n' ∉ cfg.header.data) (hjt : jsTrim cfg.header = cfg.header)
    (htitles : ∀ m ∈ st.msftTasks, '\n' ∉ m.title.data ∧
      findCompletion m.title.data = none) :
    (syncMsftToObsidian cfg noFaults
      (syncMsftToObsidian cfg noFaults st).2).1 =
      { newTasks := 0, errors := [] } := by
  have main : ∀ (stP : SyncState) (c0 : String), stP.noteContent = some c0 →
      stP.msftTasks = st.msftTasks →
      syncMsftToObsidian cfg noFaults st =
        addLoop cfg noFaults
          (filterNewTasks st.msftTasks (parseDailyNoteTodos c0)) stP 0 [] →
      (syncMsftToObsidian cfg noFaults
        (syncMsftToObsidian cfg noFaults st).2).1 =
        { newTasks := 0, errors := [] } := by
    intro stP c0 hcP hms hrun
    rcases addLoop_titles cfg hh hjt
        (filterNewTasks st.msftTasks (parseDailyNoteTodos c0)) stP 0 [] c0 hcP
        (fun t ht => htitles t (List.mem_filter.1 ht).1)
      with ⟨c', hc', hpres, hnew⟩
    have hst1c : (syncMsftToObsidian cfg noFaults st).2.noteContent = some c' := by
      rw [hrun]; exact hc'
    have hst1m : (syncMsftToObsidian cfg noFaults st).2.msftTasks =
        st.msftTasks := by
      rw [hrun, addLoop_msftTasks]; exact hms
    refine second_run_zero cfg _ c' hst1c ?_
    intro m hm
    rw [hst1m] at hm
    by_cases hmem : m ∈ filterNewTasks st.msftTasks (parseDailyNoteTodos c0)
    · exact hnew m hmem
    · rcases hb : ((parseDailyNoteTodos c0).map
          fun t => normTitle t.title).contains (normTitle m.title) with _ | _
      · refine absurd ?_ hmem
        simp only [filterNewTasks, List.mem_filter]
        exact ⟨hm, by rw [hb]; rfl⟩
      · exact hpres m.title (contains_hasTitle c0 m.title hb)
  rcases hnc : st.noteContent with _ | c0
  · exact main _ (initialNoteContent cfg) rfl (by simp [pushEvent])
      (phase1_run_none cfg st hnc)
  · exact main _ c0 (by simp [pushEvent, hnc]) (by simp [pushEvent])
      (phase1_run_some cfg st c0 hnc)

/-- Concrete state for the C7 counterexample: one remote task whose title
itself contains completion metadata. -/
def cexC7St : SyncState :=
  { msftTasks := [{ id := "1", title := "x [completion:: 2024-01-01]"
                  , status := "notStarted", startDateTime := none
                  , completedDateTime := none }]
  , noteContent := none, noteModISO := "", nextId := 0, trace := [] }

/-- C7 as stated is false on the code: for a remote task titled
`x [completion:: 2024-01-01]`, the first `syncMsftToObsidian` appends
`- [ ] x [completion:: 2024-01-01]`, which parses back with the metadata
stripped (title `x`), so the title match fails and the second back-to-back
call creates the task again (`created = 1`, not `0`). -/
theorem syncMsftToObsidian_not_idempotent :
    ¬ ((syncMsftToObsidian wCfg noFaults
      (syncMsftToObsidian wCfg noFaults cexC7St).2).1.newTasks = 0) := by
  decide

/-! ## C5: remote completions are written to the matching local line -/

/-- The single-line rewrite `updateTaskCompletion` performs on a matching
checkbox line (the identity on non-matching lines). -/
def rewriteLine (l : String) (date : String) : String :=
  match checkboxMatch l.data with
  | some (indent, _, taskText) =>
    let clean :=
      match findCompletion taskText with
      | some (pre, _, suf) => jsTrimList (pre ++ suf)
      | none => jsTrimList taskText
    ⟨indent ++ ("- [x] ".data ++ clean) ++
      (" [completion:: ".data ++ date.data ++ [']'])⟩
  | none => l

theorem updateTaskCompletionLines_ok (lines : List String) (i : Nat)
    (date : String) (hi : i < lines.length)
    (hm : (checkboxMatch (lines.getD i "").data).isSome) :
    updateTaskCompletionLines lines i date =
      .ok (lines.set i (rewriteLine (lines.getD i "") date)) := by
  rcases Option.isSome_iff_exists.1 hm with ⟨⟨ind, c, txt⟩, hcm⟩
  rw [updateTaskCompletionLines, if_neg (by omega)]
  simp only [hcm, rewriteLine]

theorem updateTaskCompletionLines_ok_inv (lines : List String) (j : Nat)
    (d' : String) (r : List String)
    (h : updateTaskCompletionLines lines j d' = .ok r) :
    j < lines.length ∧ r = lines.set j (rewriteLine (lines.getD j "") d') := by
  rw [updateTaskCompletionLines] at h
  by_cases hj : j ≥ lines.length
  · rw [if_pos hj] at h
    simp at h
  · rw [if_neg hj] at h
    rcases hcm : checkboxMatch ((lines.getD j "").data) with _ | ⟨ind, c, txt⟩ <;>
      simp only [hcm] at h
    · simp at h
    · refine ⟨by omega, ?_⟩
      simp only [Except.ok.injEq] at h
      rw [← h]
      simp only [rewriteLine, hcm]

theorem jsTrimList_subset (l : List Char) : ∀ a ∈ jsTrimList l, a ∈ l := by
  intro a ha
  rw [jsTrimList] at ha
  rw [List.mem_reverse] at ha
  have h1 := (List.dropWhile_suffix isJsSpace).subset ha
  rw [List.mem_reverse] at h1
  exact (List.dropWhile_suffix isJsSpace).subset h1

theorem digitRun_append (n : Nat) : ∀ (l ds r : List Char),
    digitRun n l = some (ds, r) → l = ds ++ r := by
  induction n with
  | zero =>
    intro l ds r h
    rw [digitRun] at h
    simp only [Option.some.injEq, Prod.mk.injEq] at h
    rw [← h.1, ← h.2]
    rfl
  | succ n ih =>
    intro l ds r h
    rcases l with _ | ⟨c, rest⟩
    · rw [digitRun] at h
      simp at h
    · rw [digitRun] at h
      by_cases hc : c.isDigit
      · rw [if_pos hc] at h
        rcases hdr : digitRun n rest with _ | ⟨ds', r'⟩
        · rw [hdr] at h
          simp at h
        · rw [hdr] at h
          simp only [Option.map_some', Option.some.injEq, Prod.mk.injEq] at h
          rw [← h.1, ← h.2, List.cons_append, ih rest ds' r' hdr]
      · rw [if_neg hc] at h
        simp at h

theorem completionAt_suffix (l d0 suf : List Char)
    (h : completionAt l = some (d0, suf)) : suf <:+ l := by
  rw [completionAt] at h
  split at h
  · have hs0 : (l.drop 13).dropWhile isJsSpace <:+ l :=
      (List.dropWhile_suffix isJsSpace).trans (List.drop_suffix 13 l)
    split at h
    · simp at h
    · next y r2 h4 =>
      have hr2 : r2 <:+ l := by
        have hap := digitRun_append 4 _ y r2 h4
        refine List.IsSuffix.trans ?_ hs0
        rw [hap]
        exact ⟨y, rfl⟩
      split at h
      · simp at h
      · next c1 r3 =>
        have hr3 : r3 <:+ l := List.IsSuffix.trans ⟨[c1], rfl⟩ hr2
        split at h
        · split at h
          · simp at h
          · next m0 r4 h2 =>
            have hr4 : r4 <:+ l := by
              have hap := digitRun_append 2 _ m0 r4 h2
              refine List.IsSuffix.trans ?_ hr3
              rw [hap]
              exact ⟨m0, rfl⟩
            split at h
            · simp at h
            · next c2 r5 =>
              have hr5 : r5 <:+ l := List.IsSuffix.trans ⟨[c2], rfl⟩ hr4
              split at h
              · split at h
                · simp at h
                · next dd r6 h3 =>
                  have hr6 : r6 <:+ l := by
                    have hap := digitRun_append 2 _ dd r6 h3
                    refine List.IsSuffix.trans ?_ hr5
                    rw [hap]
                    exact ⟨dd, rfl⟩
                  split at h
                  · simp at h
                  · next c3 r7 =>
                    have hr7 : r7 <:+ l :=
                      List.IsSuffix.trans ⟨[c3], rfl⟩ hr6
                    split at h
                    · simp only [Option.some.injEq, Prod.mk.injEq] at h
                      obtain ⟨rfl, rfl⟩ := h
                      exact hr7
                    · simp at h
              · simp at h
        · simp at h
  · simp at h

theorem findCompletion_parts (l : List Char) :
    ∀ pre d0 suf, findCompletion l = some (pre, d0, suf) →
      (∀ a ∈ pre, a ∈ l) ∧ suf <:+ l := by
  induction l with
  | nil => intro pre d0 suf h; simp [findCompletion] at h
  | cons c rest ih =>
    intro pre d0 suf h
    rw [findCompletion] at h
    rcases hca : completionAt (c :: rest) with _ | ⟨d1, suf1⟩ <;>
      simp only [hca] at h
    · rcases hfc : findCompletion rest with _ | ⟨⟨pre', d', suf'⟩⟩ <;>
        simp only [hfc] at h
      · simp at h
      · simp only [Option.some.injEq, Prod.mk.injEq] at h
        obtain ⟨rfl, rfl, rfl⟩ := h
        rcases ih pre' d' suf' hfc with ⟨hpre, hsuf⟩
        refine ⟨?_, List.IsSuffix.trans hsuf ⟨[c], rfl⟩⟩
        intro a ha
        rcases List.mem_cons.1 ha with rfl | ha
        · exact List.mem_cons_self _ _
        · exact List.mem_cons_of_mem _ (hpre a ha)
    · simp only [Option.some.injEq, Prod.mk.injEq] at h
      obtain ⟨rfl, rfl, rfl⟩ := h
      exact ⟨by simp, completionAt_suffix _ d1 suf1 hca⟩

theorem checkboxMatch_mem (l ind : List Char) (c : Char) (txt : List Char)
    (h : checkboxMatch l = some (ind, c, txt)) :
    (∀ a ∈ ind, a ∈ l) ∧ (∀ a ∈ txt, a ∈ l) := by
  have hind : ∀ a ∈ l.takeWhile isJsSpace, a ∈ l := fun a ha =>
    (List.takeWhile_prefix isJsSpace).subset ha
  rw [checkboxMatch] at h
  split at h
  · simp at h
  · next c1 r2 hd1 =>
    have hr2 : ∀ a ∈ r2, a ∈ l := fun a ha =>
      (List.dropWhile_suffix isJsSpace).subset (hd1 ▸ List.mem_cons_of_mem _ ha)
    split at h
    · split at h
      · simp at h
      · next c2 rr hd2 =>
        have hrr : ∀ a ∈ rr, a ∈ l := fun a ha =>
          hr2 a ((List.dropWhile_suffix isJsSpace).subset
            (hd2 ▸ List.mem_cons_of_mem _ ha))
        split at h
        · simp at h
        · next cc rr2 =>
          split at h
          · simp at h
          · next c3 r4 =>
            have hr4 : ∀ a ∈ r4, a ∈ l := fun a ha =>
              hrr a (List.mem_cons_of_mem _ (List.mem_cons_of_mem _ ha))
            split at h
            · split at h
              · split at h
                · split at h
                  · simp at h
                  · next lc rl hrev =>
                    simp only [Option.some.injEq, Prod.mk.injEq] at h
                    obtain ⟨rfl, rfl, rfl⟩ := h
                    refine ⟨hind, ?_⟩
                    intro a ha
                    rcases List.mem_cons.1 ha with rfl | ha
                    · refine hr4 a ?_
                      rw [← List.mem_reverse, hrev]
                      exact List.mem_cons_self _ _
                    · simp at ha
                · next r5 hne =>
                  simp only [Option.some.injEq, Prod.mk.injEq] at h
                  obtain ⟨rfl, rfl, rfl⟩ := h
                  refine ⟨hind, ?_⟩
                  intro a ha
                  exact hr4 a ((List.dropWhile_suffix isJsSpace).subset ha)
              · simp at h
            · simp at h
    · simp at h

theorem rewriteLine_no_newline (l date : String) (hl : '\n' ∉ l.data)
    (hd : '\n' ∉ date.data) : '\n' ∉ (rewriteLine l date).data := by
  rw [rewriteLine]
  rcases hcm : checkboxMatch l.data with _ | ⟨ind, c, txt⟩
  · exact hl
  · rcases checkboxMatch_mem l.data ind c txt hcm with ⟨hind, htxt⟩
    intro hmem
    simp only at hmem
    rcases List.mem_append.1 hmem with h1 | h1
    · rcases List.mem_append.1 h1 with h2 | h2
      · exact hl (hind _ h2)
      · rcases List.mem_append.1 h2 with h3 | h3
        · exact (by decide : ('\n' : Char) ∉ "- [x] ".data) h3
        · rcases hfc : findCompletion txt with _ | ⟨⟨pre, d0x, suf⟩⟩ <;>
            simp only [hfc] at h3
          · exact hl (htxt _ (jsTrimList_subset txt _ h3))
          · rcases findCompletion_parts txt pre d0x suf hfc with ⟨hpre, hsuf⟩
            rcases List.mem_append.1 (jsTrimList_subset _ _ h3) with hmm | hmm
            · exact hl (htxt _ (hpre _ hmm))
            · exact hl (htxt _ (hsuf.subset hmm))
    · rcases List.mem_append.1 h1 with h2 | h2
      · rcases List.mem_append.1 h2 with h3 | h3
        · exact (by decide : ('\n' : Char) ∉ " [completion:: ".data) h3
        · exact hd h3
      · exact (by decide : ('\n' : Char) ∉ [']']) h2

theorem parseLinesFrom_sound (ls : List String) :
    ∀ (k : Nat), ∀ t ∈ parseLinesFrom k ls,
      lineTaskData ((ls.getD (t.line - k) "").data) =
        some (t.title, t.completed, t.completionDate) := by
  induction ls with
  | nil => intro k t ht; simp [parseLinesFrom] at ht
  | cons l rest ih =>
    intro k t ht
    rw [parseLinesFrom] at ht
    rcases hld : lineTaskData l.data with _ | ⟨a, b, cd⟩ <;> simp only [hld] at ht
    · have hb := (parseLinesFrom_line_bounds rest (k + 1) t ht).1
      have hkk : t.line - k = (t.line - (k + 1)) + 1 := by omega
      rw [hkk, List.getD_cons_succ]
      exact ih (k + 1) t ht
    · rcases List.mem_cons.1 ht with rfl | ht'
      · simpa using hld
      · have hb := (parseLinesFrom_line_bounds rest (k + 1) t ht').1
        have hkk : t.line - k = (t.line - (k + 1)) + 1 := by omega
        rw [hkk, List.getD_cons_succ]
        exact ih (k + 1) t ht'

theorem parseLinesFrom_line_inj (ls : List String) :
    ∀ (k : Nat) (t1 t2 : DailyNoteTask), t1 ∈ parseLinesFrom k ls →
      t2 ∈ parseLinesFrom k ls → t1.line = t2.line → t1 = t2 := by
  induction ls with
  | nil => intro k t1 t2 h1; simp [parseLinesFrom] at h1
  | cons l rest ih =>
    intro k t1 t2 h1 h2 heq
    rw [parseLinesFrom] at h1 h2
    rcases hld : lineTaskData l.data with _ | ⟨a, b, cd⟩ <;>
      simp only [hld] at h1 h2
    · exact ih (k + 1) t1 t2 h1 h2 heq
    · rcases List.mem_cons.1 h1 with rfl | h1' <;>
        rcases List.mem_cons.1 h2 with rfl | h2'
      · rfl
      · have := (parseLinesFrom_line_bounds rest (k + 1) t2 h2').1
        simp only at heq
        omega
      · have := (parseLinesFrom_line_bounds rest (k + 1) t1 h1').1
        simp only at heq
        omega
      · exact ih (k + 1) t1 t2 h1' h2' heq

theorem lineTaskData_checkbox (l : List Char) (p : String × Bool × Option String)
    (h : lineTaskData l = some p) : (checkboxMatch l).isSome := by
  rw [lineTaskData] at h
  rcases hcm : checkboxMatch l with _ | q
  · rw [hcm] at h; simp at h
  · simp [hcm]

theorem splitLines_set_roundtrip (cur : String) (j : Nat) (rl : String)
    (hj : j < (splitLines cur).length) (hrl : '\n' ∉ rl.data) :
    splitLines (joinLines ((splitLines cur).set j rl)) =
      (splitLines cur).set j rl := by
  apply splitLines_joinLines
  · have : ((splitLines cur).set j rl).length = (splitLines cur).length :=
      List.length_set _ _ _
    intro hcon
    rw [hcon] at this
    simp at this
    omega
  · intro x hx
    rcases List.mem_or_eq_of_mem_set hx with h | rfl
    · exact mem_splitLines_no_newline cur x h
    · exact hrl

theorem getD_mem_of_lt (ls : List String) (j : Nat) (hj : j < ls.length) :
    ls.getD j "" ∈ ls := by
  rw [List.getD_eq_getElem?_getD, List.getElem?_eq_getElem hj]
  exact List.getElem_mem hj

/-- Successful `opUpdateCompletion`: rewrites exactly line `j`. -/
theorem opUpdateCompletion_ok_char (cfg : SyncConfig) (f : Faults) (j : Nat)
    (d' : String) (st : SyncState) (cur : String)
    (hc : st.noteContent = some cur) (hf : f.updateCompletionErr j = none)
    (hj : j < (splitLines cur).length)
    (hm : (checkboxMatch ((splitLines cur).getD j "").data).isSome) :
    opUpdateCompletion cfg f j d' st =
      (.ok (), { pushEvent st (.updateCompletionCall j d') with
        noteContent := some (joinLines ((splitLines cur).set j
          (rewriteLine ((splitLines cur).getD j "") d'))) }) := by
  rw [opUpdateCompletion]
  simp only [pushEvent_noteContent, hc, hf, updateTaskCompletion,
    updateTaskCompletionLines_ok _ _ _ hj hm]
  rfl

/-- Any `opUpdateCompletion`: the note is unchanged or exactly one line is
rewritten. -/
theorem opUpdateCompletion_cases (cfg : SyncConfig) (f : Faults) (j : Nat)
    (d' : String) (st : SyncState) (cur : String)
    (hc : st.noteContent = some cur) :
    (opUpdateCompletion cfg f j d' st).2.noteContent = some cur ∨
    (j < (splitLines cur).length ∧
     (opUpdateCompletion cfg f j d' st).2.noteContent =
       some (joinLines ((splitLines cur).set j
         (rewriteLine ((splitLines cur).getD j "") d')))) := by
  rw [opUpdateCompletion]
  simp only [pushEvent_noteContent, hc]
  rcases hf : f.updateCompletionErr j with _ | e
  · rcases hu : updateTaskCompletion cur j d' with raw | nc
    · left; simp [pushEvent, hc]
    · right
      rw [updateTaskCompletion] at hu
      rcases hul : updateTaskCompletionLines (splitLines cur) j d' with raw' | r
      · rw [hul] at hu
        rw [show (Except.error raw' : Except String (List String)).map joinLines =
          Except.error raw' from rfl] at hu
        simp at hu
      · rw [hul] at hu
        rcases updateTaskCompletionLines_ok_inv _ _ _ _ hul with ⟨hj, rfl⟩
        refine ⟨hj, ?_⟩
        rw [show (Except.ok ((splitLines cur).set j
            (rewriteLine ((splitLines cur).getD j "") d')) :
            Except String (List String)).map joinLines =
          Except.ok (joinLines ((splitLines cur).set j
            (rewriteLine ((splitLines cur).getD j "") d'))) from rfl] at hu
        simp only [Except.ok.injEq] at hu
        simp [pushEvent, ← hu]
  · left; simp [pushEvent, hc]

theorem truthy_some (o : Option String) (h : truthy o = true) :
    ∃ d', o = some d' ∧ d' ≠ "" := by
  rcases o with _ | d'
  · simp [truthy] at h
  · exact ⟨d', rfl, by simpa [truthy] using h⟩

theorem jsUtcDatePart_no_newline (s : String) (h : '\n' ∉ s.data) :
    '\n' ∉ (jsUtcDatePart s).data := by
  intro hmem
  exact h ((List.takeWhile_prefix _).subset hmem)

theorem completionLoop2_noteContent (cfg : SyncConfig) (f : Faults)
    (msftTasks : List TodoTask) :
    ∀ (ts : List DailyNoteTask) (st : SyncState) (n : Nat) (errs : List String),
      (completionLoop2 cfg f msftTasks ts st n errs).2.2.noteContent =
        st.noteContent := by
  intro ts
  induction ts with
  | nil => intro st n errs; simp [completionLoop2]
  | cons o rest ih =>
    intro st n errs
    rw [completionLoop2]
    by_cases hfire : (o.completed && truthy o.completionDate) = true
    · rw [if_pos hfire]
      rcases hfind : msftTasks.find? (fun m =>
          decide (normTitle m.title = normTitle o.title)) with _ | m
      · simp only [hfind]; exact ih st n errs
      · simp only [hfind]
        by_cases hstat : (!decide (m.status = "completed")) = true
        · rw [if_pos hstat]
          have hop : ∀ st' : SyncState,
              (opCompleteTask f m.id st').2.noteContent = st'.noteContent := by
            intro st'
            rcases hf : f.completeTaskErr m.id with _ | e <;>
              simp [opCompleteTask, hf, pushEvent] <;> split <;> rfl
          rcases hstep : opCompleteTask f m.id st with ⟨res, st'⟩
          have hnc := hop st
          rw [hstep] at hnc
          rcases res with e | u
          · simp only [hstep]
            rw [ih st' n _, hnc]
          · simp only [hstep]
            rw [ih st' (n + 1) errs, hnc]
        · rw [if_neg hstat]
          exact ih st n errs
    · rw [if_neg hfire]
      exact ih st n errs

/-- The firing condition of `syncCompletions`' first loop. -/
def fires1 (t : TodoTask) : Bool :=
  decide (t.status = "completed") && truthy t.completedDateTime

theorem completionLoop1_preserve (cfg : SyncConfig) (f : Faults)
    (L0 : List String) (tl : Nat) :
    ∀ (ts : List TodoTask) (st : SyncState) (n : Nat) (errs : List String)
      (cur : String),
      st.noteContent = some cur →
      (splitLines cur).length = L0.length →
      (∀ t ∈ ts, ∀ d', t.completedDateTime = some d' → '\n' ∉ d'.data) →
      (∀ t ∈ ts, fires1 t = true → ∀ obs',
        (parseLinesFrom 0 L0).find? (fun o =>
          decide (normTitle o.title = normTitle t.title)) = some obs' →
        obs'.line ≠ tl) →
      ∃ cur', (completionLoop1 cfg f (parseLinesFrom 0 L0) ts st n
          errs).2.2.noteContent = some cur' ∧
        (splitLines cur').length = L0.length ∧
        (splitLines cur').getD tl "" = (splitLines cur).getD tl "" := by
  intro ts
  induction ts with
  | nil =>
    intro st n errs cur hc hlen _ _
    exact ⟨cur, by simpa [completionLoop1] using hc, hlen, rfl⟩
  | cons t rest ih =>
    intro st n errs cur hc hlen hdates hnt
    rw [completionLoop1]
    by_cases hfire : (decide (t.status = "completed") &&
        truthy t.completedDateTime) = true
    · rw [if_pos hfire]
      rcases hfind : (parseLinesFrom 0 L0).find? (fun o =>
          decide (normTitle o.title = normTitle t.title)) with _ | obs'
      · simp only [hfind]
        exact ih st n errs cur hc hlen
          (fun t' ht' => hdates t' (List.mem_cons_of_mem _ ht'))
          (fun t' ht' => hnt t' (List.mem_cons_of_mem _ ht'))
      · simp only [hfind]
        by_cases hcompl : (!obs'.completed) = true
        · rw [if_pos hcompl]
          have hline : obs'.line ≠ tl :=
            hnt t (List.mem_cons_self _ _) hfire obs' hfind
          have hdnl : '\n' ∉ (jsUtcDatePart (t.completedDateTime.getD "")).data := by
            rcases truthy_some t.completedDateTime
                (Bool.and_elim_right hfire) with ⟨d'', hd'', _⟩
            rw [hd'']
            exact jsUtcDatePart_no_newline d''
              (hdates t (List.mem_cons_self _ _) d'' hd'')
          rcases opUpdateCompletion_cases cfg f obs'.line
              (jsUtcDatePart (t.completedDateTime.getD "")) st cur hc
            with hsame | ⟨hjlt, hset⟩
          · rcases hstep : opUpdateCompletion cfg f obs'.line
                (jsUtcDatePart (t.completedDateTime.getD "")) st with ⟨res, st'⟩
            rw [hstep] at hsame
            rcases res with e | u <;> simp only [hstep]
            · exact ih st' n _ cur hsame hlen
                (fun t' ht' => hdates t' (List.mem_cons_of_mem _ ht'))
                (fun t' ht' => hnt t' (List.mem_cons_of_mem _ ht'))
            · exact ih st' (n + 1) errs cur hsame hlen
                (fun t' ht' => hdates t' (List.mem_cons_of_mem _ ht'))
                (fun t' ht' => hnt t' (List.mem_cons_of_mem _ ht'))
          · rcases hstep : opUpdateCompletion cfg f obs'.line
                (jsUtcDatePart (t.completedDateTime.getD "")) st with ⟨res, st'⟩
            rw [hstep] at hset
            have hrl : '\n' ∉ (rewriteLine ((splitLines cur).getD obs'.line "")
                (jsUtcDatePart (t.completedDateTime.getD ""))).data :=
              rewriteLine_no_newline _ _
                (mem_splitLines_no_newline cur _ (getD_mem_of_lt _ _ hjlt)) hdnl
            have hsplit := splitLines_set_roundtrip cur obs'.line _ hjlt hrl
            have hlen2 : (splitLines (joinLines ((splitLines cur).set obs'.line
                (rewriteLine ((splitLines cur).getD obs'.line "")
                  (jsUtcDatePart (t.completedDateTime.getD "")))))).length =
                L0.length := by
              rw [hsplit, List.length_set, hlen]
            have htl2 : (splitLines (joinLines ((splitLines cur).set obs'.line
                (rewriteLine ((splitLines cur).getD obs'.line "")
                  (jsUtcDatePart (t.completedDateTime.getD "")))))).getD tl "" =
                (splitLines cur).getD tl "" := by
              rw [hsplit]
              simp [List.getD_eq_getElem?_getD,
                List.getElem?_set_ne (Ne.symm (fun h => hline h.symm))]
            rcases res with e | u <;> simp only [hstep]
            · rcases ih st' n _ _ hset hlen2
                  (fun t' ht' => hdates t' (List.mem_cons_of_mem _ ht'))
                  (fun t' ht' => hnt t' (List.mem_cons_of_mem _ ht'))
                with ⟨cur', h1, h2, h3⟩
              exact ⟨cur', h1, h2, by rw [h3, htl2]⟩
            · rcases ih st' (n + 1) errs _ hset hlen2
                  (fun t' ht' => hdates t' (List.mem_cons_of_mem _ ht'))
                  (fun t' ht' => hnt t' (List.mem_cons_of_mem _ ht'))
                with ⟨cur', h1, h2, h3⟩
              exact ⟨cur', h1, h2, by rw [h3, htl2]⟩
        · rw [if_neg hcompl]
          exact ih st n errs cur hc hlen
            (fun t' ht' => hdates t' (List.mem_cons_of_mem _ ht'))
            (fun t' ht' => hnt t' (List.mem_cons_of_mem _ ht'))
    · rw [if_neg hfire]
      exact ih st n errs cur hc hlen
        (fun t' ht' => hdates t' (List.mem_cons_of_mem _ ht'))
        (fun t' ht' => hnt t' (List.mem_cons_of_mem _ ht'))

theorem completionLoop1_hit (cfg : SyncConfig) (f : Faults) (L0 : List String)
    (m : TodoTask) (obs : DailyNoteTask) (d : String)
    (hupd : ∀ k, f.updateCompletionErr k = none)
    (hstat : m.status = "completed") (hd : m.completedDateTime = some d)
    (hdne : d ≠ "") (hdnl : '\n' ∉ d.data)
    (hfind : (parseLinesFrom 0 L0).find? (fun o =>
      decide (normTitle o.title = normTitle m.title)) = some obs)
    (hobs : obs.completed = false) :
    ∀ (ts : List TodoTask), m ∈ ts →
      ((ts.filter fires1).map (fun t => normTitle t.title)).Nodup →
      (∀ t ∈ ts, ∀ d', t.completedDateTime = some d' → '\n' ∉ d'.data) →
      ∀ (st : SyncState) (n : Nat) (errs : List String) (cur : String),
        st.noteContent = some cur →
        (splitLines cur).length = L0.length →
        (splitLines cur).getD obs.line "" = L0.getD obs.line "" →
        ∃ cur', (completionLoop1 cfg f (parseLinesFrom 0 L0) ts st n
            errs).2.2.noteContent = some cur' ∧
          (splitLines cur').getD obs.line "" =
            rewriteLine (L0.getD obs.line "") (jsUtcDatePart d) := by
  have hmemP : obs ∈ parseLinesFrom 0 L0 := List.mem_of_find?_eq_some hfind
  have hpb := List.find?_some hfind
  have hpred : normTitle obs.title = normTitle m.title := by
    simp only [decide_eq_true_eq] at hpb
    exact hpb
  have hlineL0 : obs.line < L0.length := by
    have := parseLinesFrom_line_bounds L0 0 obs hmemP
    omega
  have hcheck0 : (checkboxMatch ((L0.getD obs.line "").data)).isSome := by
    have hs := parseLinesFrom_sound L0 0 obs hmemP
    simp only [Nat.sub_zero] at hs
    exact lineTaskData_checkbox _ _ hs
  have firesm : (decide (m.status = "completed") &&
      truthy m.completedDateTime) = true := by
    simp [hstat, hd, truthy, hdne]
  have firesm1 : fires1 m = true := firesm
  intro ts
  induction ts with
  | nil => intro hm; simp at hm
  | cons t rest ih =>
    intro hm hnd hdates st n errs cur hc hlen huntouched
    have hdtail : ∀ t' ∈ rest, ∀ d', t'.completedDateTime = some d' →
        '\n' ∉ d'.data :=
      fun t' ht' => hdates t' (List.mem_cons_of_mem _ ht')
    rcases List.mem_cons.1 hm with hmt | hmrest
    · -- `t` is the completed remote task itself: the write happens here.
      rw [completionLoop1, ← hmt, if_pos firesm]
      simp only [hfind]
      have hobsc : (!obs.completed) = true := by rw [hobs]; rfl
      rw [if_pos hobsc]
      have hj : obs.line < (splitLines cur).length := by
        rw [hlen]; exact hlineL0
      have hcm : (checkboxMatch ((splitLines cur).getD obs.line "").data).isSome := by
        rw [huntouched]; exact hcheck0
      rcases hstep : opUpdateCompletion cfg f obs.line
          (jsUtcDatePart (m.completedDateTime.getD "")) st with ⟨res, st'⟩
      have hchar := opUpdateCompletion_ok_char cfg f obs.line
        (jsUtcDatePart (m.completedDateTime.getD "")) st cur hc
        (hupd obs.line) hj hcm
      rw [hstep] at hchar
      injection hchar with hres hst'
      subst hres
      simp only [hstep]
      have hrlnl : '\n' ∉ (rewriteLine ((splitLines cur).getD obs.line "")
          (jsUtcDatePart (m.completedDateTime.getD ""))).data := by
        refine rewriteLine_no_newline _ _
          (mem_splitLines_no_newline cur _ (getD_mem_of_lt _ _ hj)) ?_
        rw [hd]
        exact jsUtcDatePart_no_newline d hdnl
      have hsplit := splitLines_set_roundtrip cur obs.line _ hj hrlnl
      have hc₂ : st'.noteContent = some (joinLines ((splitLines cur).set obs.line
          (rewriteLine ((splitLines cur).getD obs.line "")
            (jsUtcDatePart (m.completedDateTime.getD ""))))) := by
        rw [hst']
      have hlen₂ : (splitLines (joinLines ((splitLines cur).set obs.line
          (rewriteLine ((splitLines cur).getD obs.line "")
            (jsUtcDatePart (m.completedDateTime.getD "")))))).length =
          L0.length := by
        rw [hsplit, List.length_set, hlen]
      have hfilterm : (t :: rest).filter fires1 = t :: rest.filter fires1 := by
        rw [List.filter_cons, if_pos (show fires1 t = true from hmt ▸ firesm1)]
      rw [hfilterm, List.map_cons] at hnd
      have hhead : normTitle m.title ∉
          (rest.filter fires1).map (fun t => normTitle t.title) := by
        rw [hmt]
        exact (List.nodup_cons.1 hnd).1
      have hnotouch : ∀ t' ∈ rest, fires1 t' = true → ∀ obs'',
          (parseLinesFrom 0 L0).find? (fun o =>
            decide (normTitle o.title = normTitle t'.title)) = some obs'' →
          obs''.line ≠ obs.line := by
        intro t' ht' hf' obs'' hfind'' heq
        have heq2 : obs'' = obs := parseLinesFrom_line_inj L0 0 obs'' obs
          (List.mem_of_find?_eq_some hfind'') hmemP heq
        have hpb'' := List.find?_some hfind''
        have hprd'' : normTitle obs''.title = normTitle t'.title := by
          simp only [decide_eq_true_eq] at hpb''
          exact hpb''
        rw [heq2] at hprd''
        apply hhead
        refine List.mem_map.2 ⟨t', List.mem_filter.2 ⟨ht', hf'⟩, ?_⟩
        rw [← hprd'', hpred]
      obtain ⟨cur', h1, h2, h3⟩ := completionLoop1_preserve cfg f L0 obs.line
        rest st' (n + 1) errs _ hc₂ hlen₂ hdtail hnotouch
      refine ⟨cur', h1, ?_⟩
      rw [h3, hsplit]
      simp only [List.getD_eq_getElem?_getD, List.getElem?_set_self, hj,
        if_true, Option.getD_some]
      rw [← List.getD_eq_getElem?_getD, ← List.getD_eq_getElem?_getD,
        huntouched, hd]
      rfl
    · -- `t` is some other remote task: it may rewrite a different line.
      rw [completionLoop1]
      by_cases hfire : (decide (t.status = "completed") &&
          truthy t.completedDateTime) = true
      · rw [if_pos hfire]
        have hfiltert : (t :: rest).filter fires1 = t :: rest.filter fires1 := by
          rw [List.filter_cons, if_pos (show fires1 t = true from hfire)]
        rw [hfiltert, List.map_cons] at hnd
        have hndtail : ((rest.filter fires1).map
            (fun t => normTitle t.title)).Nodup := (List.nodup_cons.1 hnd).2
        have hnormne : normTitle t.title ≠ normTitle m.title := by
          intro he
          apply (List.nodup_cons.1 hnd).1
          rw [he]
          exact List.mem_map.2 ⟨m, List.mem_filter.2 ⟨hmrest, firesm1⟩, rfl⟩
        rcases hfind' : (parseLinesFrom 0 L0).find? (fun o =>
            decide (normTitle o.title = normTitle t.title)) with _ | obs'
        · simp only [hfind']
          exact ih hmrest hndtail hdtail st n errs cur hc hlen huntouched
        · simp only [hfind']
          by_cases hcompl : (!obs'.completed) = true
          · rw [if_pos hcompl]
            have hpb' := List.find?_some hfind'
            have hprd' : normTitle obs'.title = normTitle t.title := by
              simp only [decide_eq_true_eq] at hpb'
              exact hpb'
            have hlne : obs'.line ≠ obs.line := by
              intro he
              have heq2 : obs' = obs := parseLinesFrom_line_inj L0 0 obs' obs
                (List.mem_of_find?_eq_some hfind') hmemP he
              apply hnormne
              rw [← hprd', heq2, hpred]
            rcases opUpdateCompletion_cases cfg f obs'.line
                (jsUtcDatePart (t.completedDateTime.getD "")) st cur hc
              with hsame | ⟨hjlt, hset⟩
            · rcases hstep : opUpdateCompletion cfg f obs'.line
                  (jsUtcDatePart (t.completedDateTime.getD "")) st with ⟨res, st'⟩
              rw [hstep] at hsame
              rcases res with e | u <;> simp only [hstep]
              · exact ih hmrest hndtail hdtail st' n _ cur hsame hlen huntouched
              · exact ih hmrest hndtail hdtail st' (n + 1) errs cur hsame hlen
                  huntouched
            · rcases hstep : opUpdateCompletion cfg f obs'.line
                  (jsUtcDatePart (t.completedDateTime.getD "")) st with ⟨res, st'⟩
              rw [hstep] at hset
              have hdnl' : '\n' ∉ (jsUtcDatePart (t.completedDateTime.getD "")).data := by
                rcases truthy_some t.completedDateTime
                    (Bool.and_elim_right hfire) with ⟨d'', hd'', _⟩
                rw [hd'']
                exact jsUtcDatePart_no_newline d''
                  (hdates t (List.mem_cons_self _ _) d'' hd'')
              have hrl' : '\n' ∉ (rewriteLine ((splitLines cur).getD obs'.line "")
                  (jsUtcDatePart (t.completedDateTime.getD ""))).data :=
                rewriteLine_no_newline _ _
                  (mem_splitLines_no_newline cur _ (getD_mem_of_lt _ _ hjlt)) hdnl'
              have hsplit' := splitLines_set_roundtrip cur obs'.line _ hjlt hrl'
              have hlen2 : (splitLines (joinLines ((splitLines cur).set obs'.line
                  (rewriteLine ((splitLines cur).getD obs'.line "")
                    (jsUtcDatePart (t.completedDateTime.getD "")))))).length =
                  L0.length := by
                rw [hsplit', List.length_set, hlen]
              have huntouched2 : (splitLines (joinLines ((splitLines cur).set
                  obs'.line (rewriteLine ((splitLines cur).getD obs'.line "")
                    (jsUtcDatePart (t.completedDateTime.getD "")))))).getD
                  obs.line "" = L0.getD obs.line "" := by
                rw [hsplit', ← huntouched]
                simp [List.getD_eq_getElem?_getD,
                  List.getElem?_set_ne (Ne.symm (fun h => hlne h.symm))]
              rcases res with e | u <;> simp only [hstep]
              · exact ih hmrest hndtail hdtail st' n _ _ hset hlen2 huntouched2
              · exact ih hmrest hndtail hdtail st' (n + 1) errs _ hset hlen2
                  huntouched2
          · rw [if_neg hcompl]
            exact ih hmrest hndtail hdtail st n errs cur hc hlen huntouched
      · rw [if_neg hfire]
        have hfiltert : (t :: rest).filter fires1 = rest.filter fires1 := by
          rw [List.filter_cons, if_neg (show ¬fires1 t = true from hfire)]
        rw [hfiltert] at hnd
        exact ih hmrest hnd hdtail st n errs cur hc hlen huntouched

/-- C5: in `syncCompletions`, every remote task with status `completed` and a
non-empty completion timestamp whose normalized title first matches a
not-yet-completed local task is propagated: the local note line at the
matched task's index is rewritten by `rewriteLine` with exactly the date
portion `jsUtcDatePart` of the remote timestamp (the prefix before the first
`T`, time-of-day and zone discarded).  The snapshot reads succeed,
per-line writes do not fault, remote completion timestamps contain no
newline, and distinct firing remote tasks carry distinct normalized titles
(so no other remote task rewrites this line). -/
theorem syncCompletions_marks_local (cfg : SyncConfig) (f : Faults)
    (st : SyncState) (content : String) (m : TodoTask) (obs : DailyNoteTask)
    (d : String)
    (hc : st.noteContent = some content)
    (hread : f.readNoteErr = none)
    (hget : f.getTasksErr = none)
    (hupd : ∀ k, f.updateCompletionErr k = none)
    (hdates : ∀ t ∈ st.msftTasks, ∀ d', t.completedDateTime = some d' →
      '\n' ∉ d'.data)
    (hnd : ((st.msftTasks.filter fires1).map
      (fun t => normTitle t.title)).Nodup)
    (hm : m ∈ st.msftTasks)
    (hstat : m.status = "completed")
    (hd : m.completedDateTime = some d) (hdne : d ≠ "")
    (hfind : (parseDailyNoteTodos content).find? (fun o =>
      decide (normTitle o.title = normTitle m.title)) = some obs)
    (hobs : obs.completed = false) :
    ∃ content', (syncCompletions cfg f st).2.noteContent = some content' ∧
      (splitLines content').getD obs.line "" =
        rewriteLine ((splitLines content).getD obs.line "")
          (jsUtcDatePart d) := by
  rw [syncCompletions]
  simp only [opParseNote_ok cfg f st content hc hread]
  simp only [opGetTasks_ok f (pushEvent st .parseNoteCall) hget]
  simp only [pushEvent_msftTasks, parseDailyNoteTodos]
  obtain ⟨cur', h1, h2⟩ := completionLoop1_hit cfg f (splitLines content) m
    obs d hupd hstat hd hdne (hdates m hm d hd) hfind hobs st.msftTasks hm
    hnd hdates (pushEvent (pushEvent st .parseNoteCall) .getTasksCall) 0 []
    content hc rfl rfl
  rcases hloop : completionLoop1 cfg f (parseLinesFrom 0 (splitLines content))
      st.msftTasks (pushEvent (pushEvent st .parseNoteCall) .getTasksCall) 0 []
    with ⟨n1, errs1, st₃⟩
  rw [hloop] at h1
  simp only [hloop]
  have hnc2 := completionLoop2_noteContent cfg f st.msftTasks
    (parseLinesFrom 0 (splitLines content)) st₃ n1 errs1
  rcases hloop2 : completionLoop2 cfg f st.msftTasks
      (parseLinesFrom 0 (splitLines content)) st₃ n1 errs1
    with ⟨n2, errs2, st₄⟩
  rw [hloop2] at hnc2
  simp only [hloop2]
  exact ⟨cur', hnc2.trans h1, h2⟩

/-! ## Concrete witnesses -/

/-- Faults for the C3 witness: appending the task titled "B" fails. -/
def wF3 : Faults :=
  { noFaults with addTaskErr := fun t => if t = "B" then some "disk full" else none }

/-- State for the C3 witness: two fresh remote tasks, an empty note. -/
def wSt3 : SyncState :=
  { msftTasks :=
      [ { id := "a", title := "A", status := "notStarted"
        , startDateTime := none, completedDateTime := none }
      , { id := "b", title := "B", status := "notStarted"
        , startDateTime := none, completedDateTime := none } ]
  , noteContent := some "", noteModISO := "", nextId := 0, trace := [] }

/-- Faults for the C4 witness: the remote fetch itself fails. -/
def wF4 : Faults := { noFaults with getTasksErr := some "network down" }

/-- State for the C4 witness. -/
def wSt4 : SyncState :=
  { msftTasks := [], noteContent := some "", noteModISO := ""
  , nextId := 0, trace := [] }

/-- C4 at a concrete input: with the remote fetch failing, phase 1 yields
zero created tasks and one aggregate error, and `performFullSync` still
returns a total result with `success = false`. -/
theorem syncMsftToObsidian_phase_failure_witness :
    (wF4.getTasksErr.isSome ∨ (wSt4.noteContent = none ∧ wF4.createNoteErr.isSome) ∨
      wF4.readNoteErr.isSome) ∧
    ∃ msg, (syncMsftToObsidian wCfg wF4 wSt4).1 = { newTasks := 0, errors := [msg] } ∧
      (performFullSync wCfg wF4 noFaults noFaults wSt4).1 =
        { success := false
        , newTasksFromMsft := 0
        , newTasksFromObsidian :=
            (syncObsidianToMsft wCfg noFaults (syncMsftToObsidian wCfg wF4 wSt4).2).1.newTasks
        , completedTasks :=
            (syncCompletions wCfg noFaults
              (syncObsidianToMsft wCfg noFaults (syncMsftToObsidian wCfg wF4 wSt4).2).2).1.completedTasks
        , errors := msg ::
            ((syncObsidianToMsft wCfg noFaults (syncMsftToObsidian wCfg wF4 wSt4).2).1.errors ++
             (syncCompletions wCfg noFaults
               (syncObsidianToMsft wCfg noFaults (syncMsftToObsidian wCfg wF4 wSt4).2).2).1.errors) } :=
  ⟨by decide,
    syncMsftToObsidian_phase_failure wCfg wF4 noFaults noFaults wSt4 (by decide)⟩

/-- Remote task for the C5 witness, completed at 10:00 UTC on 2024-01-01. -/
def wM5 : TodoTask :=
  { id := "m1", title := "Buy milk", status := "completed"
  , startDateTime := none, completedDateTime := some "2024-01-01T10:00:00Z" }

/-- The local task the C5 witness note parses to. -/
def wObs5 : DailyNoteTask :=
  { title := "Buy milk", completed := false, line := 0, completionDate := none }

/-- State for the C5 witness. -/
def wSt5 : SyncState :=
  { msftTasks := [wM5], noteContent := some "- [ ] Buy milk"
  , noteModISO := "", nextId := 0, trace := [] }

/-- C5 at a concrete input: a remote task completed at
`2024-01-01T10:00:00Z` rewrites the matching local line, and the rewritten
line carries completion date exactly `2024-01-01`. -/
theorem syncCompletions_marks_local_witness :
    wSt5.noteContent = some "- [ ] Buy milk" ∧
    noFaults.readNoteErr = none ∧
    noFaults.getTasksErr = none ∧
    (∀ k, noFaults.updateCompletionErr k = none) ∧
    (∀ t ∈ wSt5.msftTasks, ∀ d', t.completedDateTime = some d' →
      '\n' ∉ d'.data) ∧
    ((wSt5.msftTasks.filter fires1).map (fun t => normTitle t.title)).Nodup ∧
    wM5 ∈ wSt5.msftTasks ∧
    wM5.status = "completed" ∧
    wM5.completedDateTime = some "2024-01-01T10:00:00Z" ∧
    "2024-01-01T10:00:00Z" ≠ "" ∧
    (parseDailyNoteTodos "- [ ] Buy milk").find? (fun o =>
      decide (normTitle o.title = normTitle wM5.title)) = some wObs5 ∧
    wObs5.completed = false ∧
    (∃ content', (syncCompletions wCfg noFaults wSt5).2.noteContent =
        some content' ∧
      (splitLines content').getD wObs5.line "" =
        rewriteLine ((splitLines "- [ ] Buy milk").getD wObs5.line "")
          (jsUtcDatePart "2024-01-01T10:00:00Z")) ∧
    rewriteLine ((splitLines "- [ ] Buy milk").getD wObs5.line "")
      (jsUtcDatePart "2024-01-01T10:00:00Z") =
      "- [x] Buy milk [completion:: 2024-01-01]" :=
  ⟨rfl, rfl, rfl, fun _ => rfl,
   fun t ht d' hd' => by
     rcases List.mem_cons.1 ht with rfl | h0
     · rw [show wM5.completedDateTime = some "2024-01-01T10:00:00Z" from rfl]
         at hd'
       injection hd' with h
       subst h
       decide
     · exact absurd h0 (List.not_mem_nil t),
   by decide, by decide, rfl, rfl, by decide, by decide, rfl,
   syncCompletions_marks_local wCfg noFaults wSt5 "- [ ] Buy milk" wM5 wObs5
     "2024-01-01T10:00:00Z" rfl rfl rfl (fun _ => rfl)
     (fun t ht d' hd' => by
       rcases List.mem_cons.1 ht with rfl | h0
       · rw [show wM5.completedDateTime = some "2024-01-01T10:00:00Z" from rfl]
           at hd'
         injection hd' with h
         subst h
         decide
       · exact absurd h0 (List.not_mem_nil t))
     (by decide) (by decide) rfl rfl (by decide) (by decide) rfl,
   by decide⟩

/-- Remote task for the C6 witness, not yet completed remotely. -/
def wMt6 : TodoTask :=
  { id := "7", title := "Pay rent", status := "notStarted"
  , startDateTime := none, completedDateTime := none }

/-- The local task the C6 witness note parses to: checked, with completion
metadata. -/
def wObs6 : DailyNoteTask :=
  { title := "Pay rent", completed := true, line := 0
  , completionDate := some "2024-01-02" }

/-- State for the C6 witness. -/
def wSt6 : SyncState :=
  { msftTasks := [wMt6]
  , noteContent := some "- [x] Pay rent [completion:: 2024-01-02]"
  , noteModISO := "", nextId := 0, trace := [] }

/-- C6 (amended) at a concrete input: a checked local line carrying
completion metadata triggers the remote complete call on the matching
remote task's id. -/
theorem syncCompletions_completes_remote_witness :
    wSt6.noteContent = some "- [x] Pay rent [completion:: 2024-01-02]" ∧
    noFaults.readNoteErr = none ∧ noFaults.getTasksErr = none ∧
    wObs6 ∈ parseDailyNoteTodos "- [x] Pay rent [completion:: 2024-01-02]" ∧
    wObs6.completed = true ∧ wObs6.completionDate = some "2024-01-02" ∧
    "2024-01-02" ≠ "" ∧
    wSt6.msftTasks.find? (fun m =>
      decide (normTitle m.title = normTitle wObs6.title)) = some wMt6 ∧
    wMt6.status ≠ "completed" ∧
    OpEvent.completeTaskCall wMt6.id ∈ (syncCompletions wCfg noFaults wSt6).2.trace :=
  ⟨rfl, rfl, rfl, by decide, rfl, rfl, by decide, by decide, by decide,
    syncCompletions_completes_remote wCfg noFaults wSt6
      "- [x] Pay rent [completion:: 2024-01-02]" wObs6 wMt6 "2024-01-02"
      rfl rfl rfl (by decide) rfl rfl (by decide) (by decide) (by decide)⟩

/-- State for the C7 witness: one plain-titled remote task, no note yet. -/
def wSt7 : SyncState :=
  { msftTasks := [{ id := "w", title := "Walk dog", status := "notStarted"
                  , startDateTime := none, completedDateTime := none }]
  , noteContent := none, noteModISO := "", nextId := 0, trace := [] }

/-- C7 (amended) at a concrete input: with a trim-stable header and a plain
remote title, the second back-to-back run creates nothing. -/
theorem syncMsftToObsidian_idempotent_witness :
    '\n' ∉ wCfg.header.data ∧ jsTrim wCfg.header = wCfg.header ∧
    (∀ m ∈ wSt7.msftTasks, '\n' ∉ m.title.data ∧
      findCompletion m.title.data = none) ∧
    (syncMsftToObsidian wCfg noFaults
      (syncMsftToObsidian wCfg noFaults wSt7).2).1 =
      { newTasks := 0, errors := [] } :=
  ⟨by decide, by decide, by decide,
    syncMsftToObsidian_idempotent wCfg wSt7 (by decide) (by decide) (by decide)⟩

/-- State for the C8 witness: the note's only task is already checked. -/
def wSt8 : SyncState :=
  { msftTasks := [{ id := "z", title := "Old", status := "notStarted"
                  , startDateTime := none, completedDateTime := none }]
  , noteContent := some "- [x] Done already [completion:: 2024-01-04]"
  , noteModISO := "", nextId := 0, trace := [] }

/-- C8 at a concrete input: with no incomplete local task the phase returns
the empty result at once and never calls the remote list operation. -/
theorem syncObsidianToMsft_short_circuit_witness :
    wSt8.noteContent = some "- [x] Done already [completion:: 2024-01-04]" ∧
    noFaults.readNoteErr = none ∧
    (parseDailyNoteTodos "- [x] Done already [completion:: 2024-01-04]").filter
      (fun t => !t.completed) = [] ∧
    ((syncObsidianToMsft wCfg noFaults wSt8).1 = { newTasks := 0, errors := [] } ∧
     (syncObsidianToMsft wCfg noFaults wSt8).2.msftTasks = wSt8.msftTasks ∧
     (syncObsidianToMsft wCfg noFaults wSt8).2.noteContent = wSt8.noteContent ∧
     (syncObsidianToMsft wCfg noFaults wSt8).2.trace =
       wSt8.trace ++ [OpEvent.parseNoteCall] ∧
     OpEvent.getTasksCall ∉
       (syncObsidianToMsft wCfg noFaults wSt8).2.trace.drop wSt8.trace.length) :=
  ⟨rfl, rfl, by decide,
    syncObsidianToMsft_short_circuit wCfg noFaults wSt8
      "- [x] Done already [completion:: 2024-01-04]" rfl rfl (by decide)⟩

/-- State for the C9 witness: one unchecked local task, an empty remote
store, a known note modification timestamp. -/
def wSt9 : SyncState :=
  { msftTasks := [], noteContent := some "- [ ] Ship release"
  , noteModISO := "2024-01-05T08:30:00.000Z", nextId := 0, trace := [] }

/-- C9 at a concrete input: a creating run reads the modification date once
and stamps its date part on the create call and the created task. -/
theorem syncObsidianToMsft_shared_startDate_witness :
    wSt9.noteContent = some "- [ ] Ship release" ∧
    noFaults.readNoteErr = none ∧ noFaults.getTasksErr = none ∧
    noFaults.getModDateErr = none ∧
    (parseDailyNoteTodos "- [ ] Ship release").filter
      (fun t => !t.completed) ≠ [] ∧
    ∃ delta, (syncObsidianToMsft wCfg noFaults wSt9).2.trace =
        wSt9.trace ++ delta ∧
      delta.count OpEvent.getModDateCall = 1 ∧
      (∀ t s, OpEvent.createTaskCall t s ∈ delta →
        s = jsUtcDatePart wSt9.noteModISO) ∧
      ∃ added, (syncObsidianToMsft wCfg noFaults wSt9).2.msftTasks =
          wSt9.msftTasks ++ added ∧
        (jsUtcDatePart wSt9.noteModISO ≠ "" → ∀ task ∈ added,
          task.startDateTime =
            some (jsUtcDatePart wSt9.noteModISO ++ "T09:00:00.000Z")) :=
  ⟨rfl, rfl, rfl, rfl, by decide,
    syncObsidianToMsft_shared_startDate wCfg noFaults wSt9 "- [ ] Ship release"
      rfl rfl rfl rfl (by decide)⟩

/-- C10 at a concrete input: rewriting line 1 of a two-line note keeps the
line count, leaves line 0 unchanged, and keeps every parsed index in range. -/
theorem updateTaskCompletion_frame_witness :
    1 < ["# Daily", "- [ ] Water plants"].length ∧
    (checkboxMatch ((["# Daily", "- [ ] Water plants"].getD 1 "").data)).isSome ∧
    ∃ newLine, updateTaskCompletionLines ["# Daily", "- [ ] Water plants"] 1
        "2024-01-03" = .ok (["# Daily", "- [ ] Water plants"].set 1 newLine) ∧
      (["# Daily", "- [ ] Water plants"].set 1 newLine).length =
        ["# Daily", "- [ ] Water plants"].length ∧
      (∀ j, j ≠ 1 → (["# Daily", "- [ ] Water plants"].set 1 newLine).getD j "" =
        ["# Daily", "- [ ] Water plants"].getD j "") ∧
      (∀ t ∈ parseLinesFrom 0 ["# Daily", "- [ ] Water plants"],
        t.line < (["# Daily", "- [ ] Water plants"].set 1 newLine).length) :=
  ⟨by decide, by decide,
    updateTaskCompletion_frame ["# Daily", "- [ ] Water plants"] 1 "2024-01-03"
      (by decide) (by decide)⟩

/-! ## C3: per-item failures are isolated in both creation phases -/

/-- `createTask` success predicate for one item of phase 2's loop: the
trimmed title is nonempty (the client validates before any I/O) and the
transport does not fault. -/
def createOk (f : Faults) (t : DailyNoteTask) : Bool :=
  !(decide (jsTrim t.title = "")) && (f.createTaskErr t.title).isNone

/-- The error strings phase 2's loop accumulates: one entry, naming the
task's title, per new task whose remote create fails (empty-title
validation or transport fault). -/
def expectedCreateErrors (f : Faults) : List DailyNoteTask → List String
  | [] => []
  | t :: rest =>
    if jsTrim t.title = "" then
      ("Failed to create task \"" ++ t.title ++ "\": " ++
        handleApiError "Task title cannot be empty") ::
        expectedCreateErrors f rest
    else
      match f.createTaskErr t.title with
      | some e =>
        ("Failed to create task \"" ++ t.title ++ "\": " ++
          handleApiError ("Failed to create task: " ++ handleApiError e)) ::
          expectedCreateErrors f rest
      | none => expectedCreateErrors f rest

theorem expectedCreateErrors_mem (f : Faults) :
    ∀ (ts : List DailyNoteTask), ∀ err ∈ expectedCreateErrors f ts,
      ∃ t ∈ ts, createOk f t = false ∧ ∃ raw,
        err = "Failed to create task \"" ++ t.title ++ "\": " ++
          handleApiError raw := by
  intro ts
  induction ts with
  | nil => intro err herr; simp [expectedCreateErrors] at herr
  | cons t rest ih =>
    intro err herr
    rw [expectedCreateErrors] at herr
    by_cases hemp : jsTrim t.title = ""
    · rw [if_pos hemp] at herr
      rcases List.mem_cons.1 herr with rfl | herr'
      · exact ⟨t, List.mem_cons_self _ _, by simp [createOk, hemp],
          "Task title cannot be empty", rfl⟩
      · rcases ih err herr' with ⟨t', ht', hok, raw, hraw⟩
        exact ⟨t', List.mem_cons_of_mem _ ht', hok, raw, hraw⟩
    · rw [if_neg hemp] at herr
      rcases hfe : f.createTaskErr t.title with _ | e <;> rw [hfe] at herr
      · rcases ih err herr with ⟨t', ht', hok, raw, hraw⟩
        exact ⟨t', List.mem_cons_of_mem _ ht', hok, raw, hraw⟩
      · rcases List.mem_cons.1 herr with rfl | herr'
        · exact ⟨t, List.mem_cons_self _ _, by simp [createOk, hfe],
            "Failed to create task: " ++ handleApiError e, rfl⟩
        · rcases ih err herr' with ⟨t', ht', hok, raw, hraw⟩
          exact ⟨t', List.mem_cons_of_mem _ ht', hok, raw, hraw⟩

theorem opCreateTask_empty (f : Faults) (title s : String) (st : SyncState)
    (h : jsTrim title = "") :
    opCreateTask f title s st =
      (.error "Task title cannot be empty",
        pushEvent st (.createTaskCall title s)) := by
  simp [opCreateTask, h]

theorem opCreateTask_fault (f : Faults) (title s : String) (st : SyncState)
    (e : String) (h : ¬jsTrim title = "") (hf : f.createTaskErr title = some e) :
    opCreateTask f title s st =
      (.error ("Failed to create task: " ++ handleApiError e),
        pushEvent st (.createTaskCall title s)) := by
  simp [opCreateTask, h, hf]

theorem opCreateTask_ok (f : Faults) (title s : String) (st : SyncState)
    (h : ¬jsTrim title = "") (hf : f.createTaskErr title = none) :
    opCreateTask f title s st =
      (.ok (), { pushEvent st (.createTaskCall title s) with
        msftTasks := st.msftTasks ++
          [mkCreatedTask (pushEvent st (.createTaskCall title s)) title s]
      , nextId := st.nextId + 1 }) := by
  simp [opCreateTask, h, hf, pushEvent]

theorem createLoop_characterization (cfg : SyncConfig) (f : Faults) (s : String) :
    ∀ (ts : List DailyNoteTask) (st : SyncState) (n : Nat) (errs : List String),
      (createLoop cfg f s ts st n errs).1.newTasks =
        n + (ts.filter (fun t => createOk f t)).length ∧
      (createLoop cfg f s ts st n errs).1.errors =
        errs ++ expectedCreateErrors f ts ∧
      (∀ t ∈ ts, createOk f t = true →
        ∃ task ∈ (createLoop cfg f s ts st n errs).2.msftTasks,
          task.title = jsTrim t.title ∧ task.status = "notStarted") := by
  intro ts
  induction ts with
  | nil =>
    intro st n errs
    exact ⟨by simp [createLoop], by simp [createLoop, expectedCreateErrors],
      by simp⟩
  | cons t rest ih =>
    intro st n errs
    by_cases hemp : jsTrim t.title = ""
    · rw [createLoop]
      simp only [opCreateTask_empty f t.title s st hemp]
      rcases ih (pushEvent st (.createTaskCall t.title s)) n
          (errs ++ ["Failed to create task \"" ++ t.title ++ "\": " ++
            handleApiError "Task title cannot be empty"]) with ⟨h1, h2, h3⟩
      refine ⟨?_, ?_, ?_⟩
      · rw [h1, List.filter_cons_of_neg (by simp [createOk, hemp])]
      · rw [h2, expectedCreateErrors, if_pos hemp]
        simp
      · intro t' ht' hok
        rcases List.mem_cons.1 ht' with rfl | ht'
        · rw [createOk] at hok
          simp [hemp] at hok
        · exact h3 t' ht' hok
    · rcases hfe : f.createTaskErr t.title with _ | e
      · rw [createLoop]
        simp only [opCreateTask_ok f t.title s st hemp hfe]
        rcases ih { pushEvent st (.createTaskCall t.title s) with
            msftTasks := st.msftTasks ++
              [mkCreatedTask (pushEvent st (.createTaskCall t.title s)) t.title s]
          , nextId := st.nextId + 1 } (n + 1) errs with ⟨h1, h2, h3⟩
        refine ⟨?_, ?_, ?_⟩
        · rw [h1, List.filter_cons_of_pos (by simp [createOk, hemp, hfe])]
          simp [Nat.add_comm, Nat.add_assoc, Nat.add_left_comm]
        · rw [h2, expectedCreateErrors, if_neg hemp]
          simp only [hfe]
        · intro t' ht' hok
          rcases List.mem_cons.1 ht' with rfl | ht'
          · rcases createLoop_delta cfg f s rest
                { pushEvent st (.createTaskCall t'.title s) with
                  msftTasks := st.msftTasks ++
                    [mkCreatedTask (pushEvent st (.createTaskCall t'.title s))
                      t'.title s]
                , nextId := st.nextId + 1 } (n + 1) errs
              with ⟨delta, added, _, _, hms, _, _⟩
            refine ⟨mkCreatedTask (pushEvent st (.createTaskCall t'.title s))
              t'.title s, ?_, by simp [mkCreatedTask], rfl⟩
            rw [hms]
            refine List.mem_append.2 (Or.inl ?_)
            simp
          · exact h3 t' ht' hok
      · rw [createLoop]
        simp only [opCreateTask_fault f t.title s st e hemp hfe]
        rcases ih (pushEvent st (.createTaskCall t.title s)) n
            (errs ++ ["Failed to create task \"" ++ t.title ++ "\": " ++
              handleApiError ("Failed to create task: " ++ handleApiError e)])
          with ⟨h1, h2, h3⟩
        refine ⟨?_, ?_, ?_⟩
        · rw [h1, List.filter_cons_of_neg (by simp [createOk, hfe])]
        · rw [h2, expectedCreateErrors, if_neg hemp]
          simp only [hfe]
          simp
        · intro t' ht' hok
          rcases List.mem_cons.1 ht' with rfl | ht'
          · rw [createOk] at hok
            simp [hfe] at hok
          · exact h3 t' ht' hok

theorem addLoop_titles_faults (cfg : SyncConfig) (f : Faults)
    (hh : '\n' ∉ cfg.header.data) (hjt : jsTrim cfg.header = cfg.header) :
    ∀ (ts : List TodoTask) (st : SyncState) (n : Nat) (errs : List String)
      (c : String), st.noteContent = some c →
      (∀ t ∈ ts, f.addTaskErr t.title = none →
        '\n' ∉ t.title.data ∧ findCompletion t.title.data = none) →
      ∃ c', (addLoop cfg f ts st n errs).2.noteContent = some c' ∧
        (∀ x, HasTitle c x → HasTitle c' x) ∧
        (∀ t ∈ ts, f.addTaskErr t.title = none → HasTitle c' t.title) := by
  intro ts
  induction ts with
  | nil =>
    intro st n errs c hc _
    exact ⟨c, hc, fun x h => h, by simp⟩
  | cons t rest ih =>
    intro st n errs c hc hts
    rcases hf : f.addTaskErr t.title with _ | e
    · have hthead := hts t (List.mem_cons_self _ _) hf
      rw [addLoop, opAddTask_ok cfg f st c t.title hc hf]
      rcases ih ({ pushEvent st (.addTaskCall t.title) with
          noteContent := some (addTaskToTodoSection cfg.header c t.title) })
          (n + 1) errs (addTaskToTodoSection cfg.header c t.title) rfl
          (fun t' ht' => hts t' (List.mem_cons_of_mem _ ht'))
        with ⟨c', hc', hpres, htitles⟩
      refine ⟨c', hc', ?_, ?_⟩
      · intro x hx
        exact hpres x (hasTitle_addTask_pres cfg.header c t.title x hh
          hthead.1 hjt hx)
      · intro t' ht' hf'
        rcases List.mem_cons.1 ht' with rfl | ht'
        · exact hpres t'.title (hasTitle_addTask_self cfg.header c t'.title hh
            hthead.1 hjt hthead.2)
        · exact htitles t' ht' hf'
    · rw [addLoop, opAddTask_err cfg f st c t.title e hc hf]
      rcases ih (pushEvent st (.addTaskCall t.title)) n
          (errs ++ ["Failed to add task \"" ++ t.title ++ "\": " ++
            handleFileError ("Failed to add task: " ++ handleFileError e)])
          c (by simpa [pushEvent] using hc)
          (fun t' ht' => hts t' (List.mem_cons_of_mem _ ht'))
        with ⟨c', hc', hpres, htitles⟩
      refine ⟨c', hc', hpres, ?_⟩
      intro t' ht' hf'
      rcases List.mem_cons.1 ht' with rfl | ht'
      · rw [hf] at hf'
        exact absurd hf' (by simp)
      · exact htitles t' ht' hf'

theorem phase2_run (cfg : SyncConfig) (f : Faults) (st : SyncState) (c : String)
    (hc : st.noteContent = some c) (hread : f.readNoteErr = none)
    (hget : f.getTasksErr = none) (hmod : f.getModDateErr = none)
    (hne : (parseDailyNoteTodos c).filter (fun t => !t.completed) ≠ []) :
    syncObsidianToMsft cfg f st =
      createLoop cfg f (jsUtcDatePart st.noteModISO)
        (filterNewObsidianTasks
          ((parseDailyNoteTodos c).filter (fun t => !t.completed)) st.msftTasks)
        (pushEvent (pushEvent (pushEvent st .parseNoteCall) .getTasksCall)
          .getModDateCall) 0 [] := by
  have hie : ((parseDailyNoteTodos c).filter
      (fun t => !t.completed)).isEmpty = false := by
    rcases hl : (parseDailyNoteTodos c).filter (fun t => !t.completed)
      with _ | ⟨a, as⟩
    · exact absurd hl hne
    · rw [hl]; rfl
  simp only [syncObsidianToMsft, opParseNote_ok cfg f st c hc hread, hie,
    Bool.false_eq_true, if_false,
    opGetTasks_ok f (pushEvent st .parseNoteCall) hget,
    opGetModDate_ok cfg f (pushEvent (pushEvent st .parseNoteCall) .getTasksCall)
      c (by simpa [pushEvent] using hc) hmod]
  rfl

theorem fullSync_success_eq (cfg : SyncConfig) (f1 f2 f3 : Faults)
    (st : SyncState) :
    (performFullSync cfg f1 f2 f3 st).1.success =
      (decide ((syncMsftToObsidian cfg f1 st).1.errors.length = 0) &&
       decide ((syncObsidianToMsft cfg f2
         (syncMsftToObsidian cfg f1 st).2).1.errors.length = 0) &&
       decide ((syncCompletions cfg f3 (syncObsidianToMsft cfg f2
         (syncMsftToObsidian cfg f1 st).2).2).1.errors.length = 0)) := by
  rcases h1 : syncMsftToObsidian cfg f1 st with ⟨r1, s1⟩
  rcases h2 : syncObsidianToMsft cfg f2 s1 with ⟨r2, s2⟩
  rcases h3 : syncCompletions cfg f3 s2 with ⟨r3, s3⟩
  simp [performFullSync, h1, h2, h3]

/-- C3: within a single creation phase, per-item mutation failures are
isolated.  Phase 1 (note append, `syncMsftToObsidian`): the created count is
the number of new remote tasks whose append succeeded, the error list has
exactly one entry per failed item, each naming that item's title, every
successfully appended task is retained in the resulting note (its line
parses back under the stated well-formedness of header and titles), and any
per-item failure makes the overall `performFullSync` unsuccessful.  Phase 2
(remote create, `syncObsidianToMsft`): the created count is the number of
new local tasks whose remote create succeeded, the error list has exactly
one entry per failed item, each naming that item's title, every successfully
created task is retained in the remote store (trimmed title, status
`notStarted`), and any per-item failure again makes the overall
`performFullSync` unsuccessful. -/
theorem creation_phase_item_isolation (cfg : SyncConfig) (f f2 : Faults)
    (st st2 : SyncState) (c c2 : String)
    (hget : f.getTasksErr = none) (hc : st.noteContent = some c)
    (hread : f.readNoteErr = none)
    (hh : '\n' ∉ cfg.header.data) (hjt : jsTrim cfg.header = cfg.header)
    (htitles : ∀ t ∈ filterNewTasks st.msftTasks (parseDailyNoteTodos c),
      f.addTaskErr t.title = none →
        '\n' ∉ t.title.data ∧ findCompletion t.title.data = none)
    (hc2 : st2.noteContent = some c2) (hread2 : f2.readNoteErr = none)
    (hget2 : f2.getTasksErr = none) (hmod2 : f2.getModDateErr = none)
    (hne2 : (parseDailyNoteTodos c2).filter (fun t => !t.completed) ≠ []) :
    ((syncMsftToObsidian cfg f st).1.newTasks =
      ((filterNewTasks st.msftTasks (parseDailyNoteTodos c)).filter
        (fun t => (f.addTaskErr t.title).isNone)).length ∧
     (syncMsftToObsidian cfg f st).1.errors =
      expectedAddErrors f (filterNewTasks st.msftTasks (parseDailyNoteTodos c)) ∧
     (∀ err ∈ (syncMsftToObsidian cfg f st).1.errors,
       ∃ t ∈ filterNewTasks st.msftTasks (parseDailyNoteTodos c), ∃ e,
         f.addTaskErr t.title = some e ∧
         err = "Failed to add task \"" ++ t.title ++ "\": " ++
           handleFileError ("Failed to add task: " ++ handleFileError e)) ∧
     (∃ c', (syncMsftToObsidian cfg f st).2.noteContent = some c' ∧
       ∀ t ∈ filterNewTasks st.msftTasks (parseDailyNoteTodos c),
         f.addTaskErr t.title = none → HasTitle c' t.title) ∧
     ((syncMsftToObsidian cfg f st).1.errors ≠ [] → ∀ g2 g3,
       (performFullSync cfg f g2 g3 st).1.success = false)) ∧
    ((syncObsidianToMsft cfg f2 st2).1.newTasks =
      ((filterNewObsidianTasks
          ((parseDailyNoteTodos c2).filter (fun t => !t.completed))
          st2.msftTasks).filter (fun t => createOk f2 t)).length ∧
     (syncObsidianToMsft cfg f2 st2).1.errors =
      expectedCreateErrors f2 (filterNewObsidianTasks
        ((parseDailyNoteTodos c2).filter (fun t => !t.completed))
        st2.msftTasks) ∧
     (∀ err ∈ (syncObsidianToMsft cfg f2 st2).1.errors,
       ∃ t ∈ filterNewObsidianTasks
           ((parseDailyNoteTodos c2).filter (fun t => !t.completed))
           st2.msftTasks,
         createOk f2 t = false ∧ ∃ raw,
           err = "Failed to create task \"" ++ t.title ++ "\": " ++
             handleApiError raw) ∧
     (∀ t ∈ filterNewObsidianTasks
         ((parseDailyNoteTodos c2).filter (fun t => !t.completed))
         st2.msftTasks,
       createOk f2 t = true →
         ∃ task ∈ (syncObsidianToMsft cfg f2 st2).2.msftTasks,
           task.title = jsTrim t.title ∧ task.status = "notStarted") ∧
     (∀ g1 g3 st0,
       (syncObsidianToMsft cfg f2 (syncMsftToObsidian cfg g1 st0).2).1.errors ≠ [] →
       (performFullSync cfg g1 f2 g3 st0).1.success = false)) := by
  have hphase : syncMsftToObsidian cfg f st =
      addLoop cfg f (filterNewTasks st.msftTasks (parseDailyNoteTodos c))
        (pushEvent (pushEvent (pushEvent st .getTasksCall) .createNoteCall)
          .parseNoteCall) 0 [] := by
    simp only [syncMsftToObsidian, opGetTasks_ok f st hget,
      opCreateTodayNote_exists cfg f (pushEvent st .getTasksCall) c
        (by simpa [pushEvent] using hc),
      opParseNote_ok cfg f (pushEvent (pushEvent st .getTasksCall)
        .createNoteCall) c (by simpa [pushEvent] using hc) hread]
  have hchar := addLoop_characterization cfg f
    (filterNewTasks st.msftTasks (parseDailyNoteTodos c))
    (pushEvent (pushEvent (pushEvent st .getTasksCall) .createNoteCall)
      .parseNoteCall) 0 [] c (by simpa [pushEvent] using hc)
  have hphase2 := phase2_run cfg f2 st2 c2 hc2 hread2 hget2 hmod2 hne2
  have hchar2 := createLoop_characterization cfg f2
    (jsUtcDatePart st2.noteModISO)
    (filterNewObsidianTasks
      ((parseDailyNoteTodos c2).filter (fun t => !t.completed)) st2.msftTasks)
    (pushEvent (pushEvent (pushEvent st2 .parseNoteCall) .getTasksCall)
      .getModDateCall) 0 []
  refine ⟨⟨?_, ?_, ?_, ?_, ?_⟩, ?_, ?_, ?_, ?_, ?_⟩
  · rw [hphase]; simpa using hchar.1
  · rw [hphase]; simpa using hchar.2
  · intro err herr
    rw [hphase, hchar.2] at herr
    exact expectedAddErrors_mem f _ err (by simpa using herr)
  · rcases addLoop_titles_faults cfg f hh hjt
        (filterNewTasks st.msftTasks (parseDailyNoteTodos c))
        (pushEvent (pushEvent (pushEvent st .getTasksCall) .createNoteCall)
          .parseNoteCall) 0 [] c (by simpa [pushEvent] using hc) htitles
      with ⟨c', hc', _, htit⟩
    exact ⟨c', by rw [hphase]; exact hc', htit⟩
  · intro hne g2 g3
    rw [fullSync_success_eq]
    have hlen : (syncMsftToObsidian cfg f st).1.errors.length ≠ 0 :=
      fun h0 => hne (List.length_eq_zero.1 h0)
    simp [hlen]
  · rw [hphase2]; simpa using hchar2.1
  · rw [hphase2]; simpa using hchar2.2.1
  · intro err herr
    rw [hphase2, hchar2.2.1] at herr
    exact expectedCreateErrors_mem f2 _ err (by simpa using herr)
  · intro t ht hok
    rw [hphase2]
    exact hchar2.2.2 t ht hok
  · intro g1 g3 st0 hneq
    rw [fullSync_success_eq]
    have hlen : (syncObsidianToMsft cfg f2
        (syncMsftToObsidian cfg g1 st0).2).1.errors.length ≠ 0 :=
      fun h0 => hneq (List.length_eq_zero.1 h0)
    simp [hlen]

/-- Faults for the C3 witness's phase 2: the remote create of "Task X"
fails with a connectivity error. -/
def wF3c : Faults :=
  { noFaults with createTaskErr := fun t =>
      if t = "Task X" then some "ConnectivityError" else none }

/-- State for the C3 witness's phase 2: two incomplete local tasks, an
empty remote store. -/
def wSt3c : SyncState :=
  { msftTasks := [], noteContent := some "- [ ] Task X\n- [ ] Task Y"
  , noteModISO := "2024-01-05T08:00:00.000Z", nextId := 0, trace := [] }

/-- C3 at concrete inputs, mirroring Scenario D in both phases: in phase 1
the append of "B" faults while "A" succeeds; in phase 2 the remote create of
"Task X" raises a connectivity error while "Task Y" succeeds.  Each phase
reports created=1 with one error naming the failed title, and the
successful items are retained. -/
theorem creation_phase_item_isolation_witness :
    wF3.getTasksErr = none ∧ wSt3.noteContent = some "" ∧
    wF3.readNoteErr = none ∧
    '\n' ∉ wCfg.header.data ∧ jsTrim wCfg.header = wCfg.header ∧
    (∀ t ∈ filterNewTasks wSt3.msftTasks (parseDailyNoteTodos ""),
      wF3.addTaskErr t.title = none →
        '\n' ∉ t.title.data ∧ findCompletion t.title.data = none) ∧
    wSt3c.noteContent = some "- [ ] Task X\n- [ ] Task Y" ∧
    wF3c.readNoteErr = none ∧ wF3c.getTasksErr = none ∧
    wF3c.getModDateErr = none ∧
    (parseDailyNoteTodos "- [ ] Task X\n- [ ] Task Y").filter
      (fun t => !t.completed) ≠ [] ∧
    (((syncMsftToObsidian wCfg wF3 wSt3).1.newTasks =
       ((filterNewTasks wSt3.msftTasks (parseDailyNoteTodos "")).filter
         (fun t => (wF3.addTaskErr t.title).isNone)).length ∧
      (syncMsftToObsidian wCfg wF3 wSt3).1.errors =
       expectedAddErrors wF3
         (filterNewTasks wSt3.msftTasks (parseDailyNoteTodos "")) ∧
      (∀ err ∈ (syncMsftToObsidian wCfg wF3 wSt3).1.errors,
        ∃ t ∈ filterNewTasks wSt3.msftTasks (parseDailyNoteTodos ""), ∃ e,
          wF3.addTaskErr t.title = some e ∧
          err = "Failed to add task \"" ++ t.title ++ "\": " ++
            handleFileError ("Failed to add task: " ++ handleFileError e)) ∧
      (∃ c', (syncMsftToObsidian wCfg wF3 wSt3).2.noteContent = some c' ∧
        ∀ t ∈ filterNewTasks wSt3.msftTasks (parseDailyNoteTodos ""),
          wF3.addTaskErr t.title = none → HasTitle c' t.title) ∧
      ((syncMsftToObsidian wCfg wF3 wSt3).1.errors ≠ [] → ∀ g2 g3,
        (performFullSync wCfg wF3 g2 g3 wSt3).1.success = false)) ∧
     ((syncObsidianToMsft wCfg wF3c wSt3c).1.newTasks =
       ((filterNewObsidianTasks
           ((parseDailyNoteTodos "- [ ] Task X\n- [ ] Task Y").filter
             (fun t => !t.completed)) wSt3c.msftTasks).filter
         (fun t => createOk wF3c t)).length ∧
      (syncObsidianToMsft wCfg wF3c wSt3c).1.errors =
       expectedCreateErrors wF3c (filterNewObsidianTasks
         ((parseDailyNoteTodos "- [ ] Task X\n- [ ] Task Y").filter
           (fun t => !t.completed)) wSt3c.msftTasks) ∧
      (∀ err ∈ (syncObsidianToMsft wCfg wF3c wSt3c).1.errors,
        ∃ t ∈ filterNewObsidianTasks
            ((parseDailyNoteTodos "- [ ] Task X\n- [ ] Task Y").filter
              (fun t => !t.completed)) wSt3c.msftTasks,
          createOk wF3c t = false ∧ ∃ raw,
            err = "Failed to create task \"" ++ t.title ++ "\": " ++
              handleApiError raw) ∧
      (∀ t ∈ filterNewObsidianTasks
          ((parseDailyNoteTodos "- [ ] Task X\n- [ ] Task Y").filter
            (fun t => !t.completed)) wSt3c.msftTasks,
        createOk wF3c t = true →
          ∃ task ∈ (syncObsidianToMsft wCfg wF3c wSt3c).2.msftTasks,
            task.title = jsTrim t.title ∧ task.status = "notStarted") ∧
      (∀ g1 g3 st0,
        (syncObsidianToMsft wCfg wF3c
          (syncMsftToObsidian wCfg g1 st0).2).1.errors ≠ [] →
        (performFullSync wCfg g1 wF3c g3 st0).1.success = false))) ∧
    (syncMsftToObsidian wCfg wF3 wSt3).1.newTasks = 1 ∧
    (syncMsftToObsidian wCfg wF3 wSt3).1.errors.length = 1 ∧
    (syncObsidianToMsft wCfg wF3c wSt3c).1.newTasks = 1 ∧
    (syncObsidianToMsft wCfg wF3c wSt3c).1.errors.length = 1 :=
  ⟨rfl, rfl, rfl, by decide, by decide, by decide, rfl, rfl, rfl, rfl,
   by decide,
   creation_phase_item_isolation wCfg wF3 wF3c wSt3 wSt3c ""
     "- [ ] Task X\n- [ ] Task Y" rfl rfl rfl (by decide) (by decide)
     (by decide) rfl rfl rfl rfl (by decide),
   by decide, by decide, by decide, by decide⟩

end TodoIntegrator
